import Mathlib

/-!
Verification development for the Finance_News_Pooling backend.

The development shallowly embeds the four pipeline stages of the
repository (title filtering, greedy near-duplicate detection, LLM-output
structuring, Mongo persistence) as executable Lean definitions and proves
the specification claims about them.

Modelling conventions:
* Python strings are embedded as `List Char` (`Str`); helper functions
  mirror the Python string operations used by the source (substring test,
  lower-casing, strip, replace).
* Python `datetime` values are embedded as an abstract linearly ordered
  time axis `Int` (seconds).  The standard-library parser
  `datetime.fromisoformat` is an external collaborator and is passed in as
  a parameter `fromiso : Str → Option Int`; `none` models a raised
  `ValueError`.  `datetime.utcnow()` is passed in as a parameter `now`.
* NumPy float vectors are embedded as `List Rat`; the dot product and all
  comparisons are exact rational arithmetic.
* Python dicts are embedded as association lists with unique keys;
  assignment replaces in place, `pop` removes.
-/

namespace FNP

/-- Python strings, embedded as lists of characters. -/
abbrev Str := List Char

/-- Test whether `p` is a leading segment of `s` (Python `str.startswith`). -/
def strPre : Str → Str → Bool
  | [], _ => true
  | _ :: _, [] => false
  | a :: ps, b :: ss => a == b && strPre ps ss

/-- Python substring test `needle in hay`. -/
def strIn (needle hay : Str) : Bool :=
  strPre needle hay ||
    match hay with
    | [] => false
    | _ :: t => strIn needle t

/-- Test whether `suf` is a trailing segment of `s` (Python `str.endswith`). -/
def strEnds (suf s : Str) : Bool := strPre suf.reverse s.reverse

/-- Test whether the character `c` occurs in `s` (Python `c in s` for a
single-character pattern). -/
def strHas (c : Char) (s : Str) : Bool := s.any (fun x => x == c)

/-- Replace every occurrence of the single character `pat` by `rep`
(Python `str.replace` specialised to a one-character pattern, which is the
only form the source uses). -/
def strReplaceChar (pat : Char) (rep : Str) : Str → Str
  | [] => []
  | c :: rest =>
    if c == pat then rep ++ strReplaceChar pat rep rest
    else c :: strReplaceChar pat rep rest

/-- Python `str.lower` (ASCII model). -/
def lowerL (s : Str) : Str := s.map Char.toLower

/-- Characters stripped by Python `str.strip()` with no argument. -/
def isPyWs (c : Char) : Bool :=
  c == ' ' || c == '\t' || c == '\n' || c == '\r' || c == '\x0b' || c == '\x0c'

/-- Remove leading characters satisfying `p` (Python `str.lstrip`). -/
def stripLead (p : Char → Bool) (s : Str) : Str := s.dropWhile p

/-- Remove leading and trailing characters satisfying `p`
(Python `str.strip`). -/
def stripBoth (p : Char → Bool) (s : Str) : Str :=
  ((s.dropWhile p).reverse.dropWhile p).reverse

namespace Filter

/-- NEGATIVE (general-news) title keywords from `filter.py`; a title
containing any of these as a substring is a candidate drop.  The source
stores them in a Python `set`; the list keeps the order of the source
text (set iteration order is interpreter-defined, so which of several
matching terms is reported is implementation-defined in the source). -/
def NEG_TITLE_KEYWORDS : List Str :=
  (["movie", "film", "web series", "trailer", "box office", "actor", "actress",
    "bollywood", "tollywood", "kollywood", "entertainment", "celebrity", "music", "album",
    "cricket", "ipl", "odi", "t20", "test match", "football", "fifa", "tennis", "badminton",
    "world cup", "asia cup", "olympics", "scorecard", "match preview", "match report",
    "recipe", "travel", "tourism", "festival", "fashion", "beauty", "lifestyle", "diet",
    "how to", "tips and tricks", "what is", "explained", "viral",
    "election", "elections", "minister", "cabinet", "parliament", "assembly", "campaign", "rally",
    "politics", "political", "chief minister", "prime minister", "pm", "cm", "mla", "mp"]).map
    String.toList

/-- IMPACT exception keywords from `filter.py`; any of these occurring as a
substring of the lower-cased title keeps the item even when a negative
keyword matched. -/
def IMPACT_KEYWORDS : List Str :=
  (["stock", "stocks", "share", "shares", "market", "markets", "equity", "equities",
    "nifty", "sensex", "bank nifty", "nse", "bse", "index", "indices", "intraday",
    "ipo", "fpo", "buyback", "dividend", "split", "bonus", "rights issue", "delisting",
    "merger", "acquisition", "stake", "pledge", "de-pledge", "board meeting",
    "earnings", "results", "q1", "q2", "q3", "q4", "fy", "profit", "loss", "revenue", "ebitda",
    "margin", "guidance", "order book",
    "rbi", "sebi", "gst", "customs duty", "import duty", "export duty", "tariff", "fta",
    "repo rate", "inflation", "gdp", "iip", "cci", "crr", "slr",
    "brokerage", "target price", "price target", "rating", "upgrade", "downgrade",
    "overweight", "underweight", "buy", "sell", "accumulate", "hold", "neutral",
    "capex", "debt", "bond", "ncd", "maturity", "refinance", "order win", "contract", "mou",
    "approval", "licence", "license", "patent",
    "launch", "unveil", "roll out", "shipments", "pre-orders", "bookings"]).map
    String.toList

/-- Word character for the regex metacharacter `\b` (ASCII model of
Python `\w`). -/
def isWordChar (c : Char) : Bool := c.isAlphanum || c == '_'

/-- Lift the word-character test to an optional character; `none` stands
for the edge of the searched string. -/
def isWordOpt : Option Char → Bool
  | none => false
  | some c => isWordChar c

/-- Word-boundary test `\b` between the previous character and the rest of
the input. -/
def atBoundary (prev : Option Char) (s : Str) : Bool :=
  isWordOpt prev != isWordOpt s.head?

/-- Abstract syntax of the regular expressions appearing in
`IMPACT_PATTERNS`.  All matching is case-insensitive, mirroring the
`re.I` flag used at every `re.search` call site. -/
inductive Re where
  | eps
  | wb
  | cls (p : Char → Bool)
  | lit (w : Str)
  | seq (a b : Re)
  | alt (a b : Re)
  | opt (a : Re)
  | star (p : Char → Bool)
  | reps (p : Char → Bool) (lo hi : Nat)

/-- Match a case-insensitive literal, continuation-passing style. -/
def litMatch : Str → (Option Char → Str → Bool) → Option Char → Str → Bool
  | [], k, prev, s => k prev s
  | _ :: _, _, _, [] => false
  | c :: cs, k, _, x :: rest => x.toLower == c && litMatch cs k (some x) rest

/-- Match zero or more characters of a class, continuation-passing style. -/
def starMatch (p : Char → Bool) (k : Option Char → Str → Bool) :
    Option Char → Str → Bool
  | prev, [] => k prev []
  | prev, c :: rest => k prev (c :: rest) || (p c && starMatch p k (some c) rest)

/-- Match at most `n` characters of a class, continuation-passing style. -/
def upToMatch (p : Char → Bool) (k : Option Char → Str → Bool) :
    Nat → Option Char → Str → Bool
  | 0, prev, s => k prev s
  | _ + 1, prev, [] => k prev []
  | n + 1, prev, c :: rest => k prev (c :: rest) || (p c && upToMatch p k n (some c) rest)

/-- Match exactly `n` characters of a class, continuation-passing style. -/
def exactMatch (p : Char → Bool) (k : Option Char → Str → Bool) :
    Nat → Option Char → Str → Bool
  | 0, prev, s => k prev s
  | _ + 1, _, [] => false
  | n + 1, prev, c :: rest => p c && exactMatch p k n (some c) rest

/-- Regex matcher in continuation-passing style.  `prev` is the character
just before the current position, needed for the zero-width `\b`
assertion.  Returning `true` means some prefix of the input matches and
the continuation accepts the remainder. -/
def mmatch : Re → (Option Char → Str → Bool) → Option Char → Str → Bool
  | Re.eps, k, prev, s => k prev s
  | Re.wb, k, prev, s => atBoundary prev s && k prev s
  | Re.cls p, k, _, s =>
    match s with
    | [] => false
    | c :: rest => p c && k (some c) rest
  | Re.lit w, k, prev, s => litMatch w k prev s
  | Re.seq a b, k, prev, s => mmatch a (fun p2 s2 => mmatch b k p2 s2) prev s
  | Re.alt a b, k, prev, s => mmatch a k prev s || mmatch b k prev s
  | Re.opt a, k, prev, s => mmatch a k prev s || k prev s
  | Re.star p, k, prev, s => starMatch p k prev s
  | Re.reps p lo hi, k, prev, s =>
    exactMatch p (fun p2 s2 => upToMatch p k (hi - lo) p2 s2) lo prev s

/-- Model of `re.search`: try a match at every start position. -/
def reSearchFrom (r : Re) : Option Char → Str → Bool
  | prev, s =>
    mmatch r (fun _ _ => true) prev s ||
      match s with
      | [] => false
      | c :: rest => reSearchFrom r (some c) rest

/-- Whether the pattern `r` matches somewhere inside `s`. -/
def re_search (r : Re) (s : Str) : Bool := reSearchFrom r none s

/-- Case-insensitive literal pattern. -/
def L (s : String) : Re := Re.lit s.toList

/-- Sequence of several patterns. -/
def seqAll (l : List Re) : Re := l.foldr Re.seq Re.eps

/-- Alternation of several patterns. -/
def altAny : List Re → Re
  | [] => Re.cls (fun _ => false)
  | [r] => r
  | r :: rest => Re.alt r (altAny rest)

/-- One or more characters of a class. -/
def plus1 (p : Char → Bool) : Re := Re.seq (Re.cls p) (Re.star p)

/-- ASCII letter class: `[A-Z]` under the `re.I` flag. -/
def isAsciiLetter (c : Char) : Bool := 'a' ≤ c.toLower && c.toLower ≤ 'z'

/-- Digit class `\d` (ASCII model). -/
def isDigitC (c : Char) : Bool := c.isDigit

/-- Character class `[- ]`. -/
def dashOrSpace (c : Char) : Bool := c == '-' || c == ' '

/-- Pattern 1 of `IMPACT_PATTERNS`: ticker symbols such as RELIANCE.NS. -/
def pat_ticker : Re :=
  seqAll [Re.wb, Re.reps isAsciiLetter 2 12, L ("."),
          Re.alt (L ("ns")) (L ("bo")), Re.wb]

/-- Pattern 2: exchange and index names. -/
def pat_exchanges : Re :=
  seqAll [Re.wb, altAny [L ("nse"), L ("bse"), L ("nifty"), L ("sensex")], Re.wb]

/-- Pattern 3: market-movement verbs. -/
def pat_movement : Re :=
  seqAll [Re.wb,
          altAny [L ("up"), L ("down"),
                  Re.seq (L ("rise")) (Re.opt (L ("s"))),
                  Re.seq (L ("fall")) (Re.opt (L ("s"))),
                  Re.seq (L ("surge")) (Re.opt (L ("s"))),
                  Re.seq (L ("slump")) (Re.opt (L ("s"))),
                  Re.seq (L ("spike")) (Re.opt (L ("s"))),
                  Re.seq (L ("tumble")) (Re.opt (L ("s")))],
          Re.wb]

/-- Pattern 4: percentage changes. -/
def pat_percent : Re :=
  seqAll [Re.wb, plus1 isDigitC, Re.opt (Re.seq (L (".")) (plus1 isDigitC)),
          Re.opt (Re.cls isPyWs), L ("%"), Re.wb]

/-- Pattern 5: rupee/amount expressions. -/
def pat_amount : Re :=
  seqAll [altAny [L ("₹"), Re.seq (L ("rs")) (Re.opt (L ("."))), L ("inr")],
          Re.opt (Re.cls isPyWs), plus1 isDigitC,
          Re.opt (Re.seq (L (".")) (plus1 isDigitC)),
          Re.opt (Re.cls isPyWs),
          Re.opt (altAny [L ("crore"), L ("cr"), L ("lakh"), L ("mn"), L ("bn")])]

/-- Pattern 6: 52-week / all-time high-low phrases. -/
def pat_week_extreme : Re :=
  seqAll [Re.wb,
          altAny [seqAll [L ("52"), Re.cls dashOrSpace, L ("week")],
                  seqAll [L ("all"), Re.cls dashOrSpace, L ("time")]],
          Re.opt (Re.cls isPyWs),
          Re.alt (L ("high")) (L ("low")), Re.wb]

/-- Pattern 7: capital-market event abbreviations. -/
def pat_capmkt : Re :=
  seqAll [Re.wb,
          altAny [L ("ipo"), L ("fpo"), L ("qib"), L ("qip"), L ("of s"), L ("ofs")],
          Re.wb]

/-- The seven regex impact patterns of `filter.py`, in source order. -/
def IMPACT_PATTERNS : List Re :=
  [pat_ticker, pat_exchanges, pat_movement, pat_percent, pat_amount,
   pat_week_extreme, pat_capmkt]

/-- Embedding of `title_has_impact` from `filter.py`: the lower-cased
title contains an impact keyword, or some impact pattern matches the
title case-insensitively. -/
def title_has_impact (title : Str) : Bool :=
  let t := lowerL title
  IMPACT_KEYWORDS.any (fun k => strIn k t) ||
    IMPACT_PATTERNS.any (fun p => re_search p title)

/-- Embedding of `title_should_keep` from `filter.py`: negative-first with
impact exception.  Returns the keep flag and the reason string. -/
def title_should_keep (title : Str) : Bool × Str :=
  let t := lowerL title
  match NEG_TITLE_KEYWORDS.find? (fun neg => strIn neg t) with
  | some neg =>
    if title_has_impact title then
      (true, ("impact_exception(").toList ++ neg ++ (")").toList)
    else
      (false, ("negative_keyword(").toList ++ neg ++ (")").toList)
  | none => (true, ("no_negative_match").toList)

/-- Whole-word (word-boundary delimited) case-insensitive occurrence of
`w` inside `s`; used only to state that a keyword does NOT occur as a
standalone word. -/
def wordOccurs (w : Str) (s : Str) : Bool :=
  re_search (Re.seq Re.wb (Re.seq (Re.lit (lowerL w)) Re.wb)) s

/-- Raw feed item as consumed by `greedy_dedupe`; each field models
`item.get(key)` on the underlying dict (`none` = key absent or None). -/
structure Item where
  id : Option Str
  title : Option Str
  url : Option Str
  source : Option Str
  published_at : Option Str
  fetched_at : Option Str
deriving DecidableEq, Inhabited

/-- One ISO-parse attempt for a candidate string, mirroring the body of
the `try` block in `parse_dt`: strings containing a plus or ending in Z
are rewritten with Z replaced by +00:00 before parsing.  The collaborator
`fromiso` models `datetime.fromisoformat` (`none` = `ValueError`). -/
def tryParseIso (fromiso : Str → Option Int) (c : Str) : Option Int :=
  if strHas '+' c || strEnds (("Z").toList) c then
    fromiso (strReplaceChar 'Z' (("+00:00").toList) c)
  else fromiso c

/-- One loop iteration of `parse_dt`: falsy candidates (None or the empty
string) are skipped, otherwise the parse is attempted. -/
def candVal (fromiso : Str → Option Int) (c : Str) : Option Int :=
  if c.isEmpty then none else tryParseIso fromiso c

/-- Embedding of `parse_dt` from `filter.py`: first parseable candidate of
`(a, b)`, with `datetime.utcnow()` (the parameter `now`) as the total
fallback. -/
def parse_dt (fromiso : Str → Option Int) (now : Int) (a b : Option Str) : Int :=
  match a.bind (candVal fromiso) with
  | some t => t
  | none =>
    match b.bind (candVal fromiso) with
    | some t => t
    | none => now

/-- Strict lexicographic comparison on sort keys, as Python compares the
`(_dt_pub, _dt_fetch)` tuples. -/
def keyLtB (k1 k2 : Int × Int) : Bool :=
  k1.1 < k2.1 || (k1.1 == k2.1 && k1.2 < k2.2)

/-- Insert `x` into a sorted list, after every element it does not
strictly precede; the building block of a stable insertion sort. -/
def insertStable {α : Type} (lt : α → α → Bool) (x : α) : List α → List α
  | [] => [x]
  | y :: ys => if lt x y then x :: y :: ys else y :: insertStable lt x ys

/-- Stable ascending sort, modelling Python `sorted` (any two stable
ascending sorts agree, so insertion sort is a faithful model of timsort). -/
def pysortedBy {α : Type} (lt : α → α → Bool) (l : List α) : List α :=
  l.foldl (fun acc x => insertStable lt x acc) []

/-- Sort key of index `k`, looked up in the `pub_fetch_pairs` list. -/
def keyAt (pairs : List (Int × Int)) (k : Nat) : Int × Int :=
  (pairs.get? k).getD (0, 0)

/-- The sorted index list `idxs` of `greedy_dedupe`:
`sorted(range(len(items)), key=...)`. -/
def dedupe_idxs (pairs : List (Int × Int)) (n : Nat) : List Nat :=
  pysortedBy (fun a b => keyLtB (keyAt pairs a) (keyAt pairs b)) (List.range n)

/-- NumPy dot product of two equal-length vectors. -/
def dot (a b : List Rat) : Rat := (List.zipWith (fun x y => x * y) a b).sum

/-- Accumulator loop for `argmaxFirst`. -/
def argGo : Nat → Rat → Nat → List Rat → Nat × Rat
  | bi, bv, _, [] => (bi, bv)
  | bi, bv, i, y :: ys => if bv < y then argGo i y (i + 1) ys else argGo bi bv (i + 1) ys

/-- Model of `int(np.argmax(sims))` and `float(np.max(sims))`: index of
the first maximum together with the maximum. -/
def argmaxFirst : List Rat → Nat × Rat
  | [] => (0, 0)
  | x :: xs => argGo 0 x 1 xs

/-- Round-half-to-even on an exact rational; stands in for Python
`round(x, 4)` on the float similarity (the float bankers rounding is
modelled exactly on ℚ). -/
def roundHalfEven (x : Rat) : Int :=
  let f : Int := ⌊x⌋
  let r : Rat := x - f
  if r < 1 / 2 then f
  else if 1 / 2 < r then f + 1
  else if f % 2 == 0 then f else f + 1

/-- Model of Python `round(mx, 4)`. -/
def round4 (x : Rat) : Rat := (roundHalfEven (x * 10000) : Int) / 10000

/-- Duplicate audit record built by `greedy_dedupe` for a dropped
near-duplicate. -/
structure DupRec where
  id : Option Str
  title : Option Str
  url : Option Str
  source : Option Str
  published_at : Option Str
  duplicate_of : Option Str
  duplicate_of_title : Option Str
  cosine_similarity : Rat
deriving DecidableEq

/-- Duplicate record for item `it` attributed to kept item `kj` at
similarity `mx`. -/
def mkDupRec (it kj : Item) (mx : Rat) : DupRec :=
  { id := it.id, title := it.title, url := it.url, source := it.source,
    published_at := it.published_at, duplicate_of := kj.id,
    duplicate_of_title := kj.title, cosine_similarity := round4 mx }

/-- Greedy scan loop of `greedy_dedupe` over the chronologically sorted
(item, vector) pairs.  The Python code temporarily stores the parsed
timestamps in the item dicts and pops them from the kept items at the
end, which leaves kept items unchanged; the embedding therefore never
mutates items. -/
def dedupe_scan (thr : Rat) (kept : List Item) (keptE : List (List Rat))
    (dupes : List DupRec) : List (Item × List Rat) → List Item × List DupRec
  | [] => (kept, dupes)
  | (it, e) :: rest =>
    if keptE.isEmpty then dedupe_scan thr (kept ++ [it]) (keptE ++ [e]) dupes rest
    else
      let sims := keptE.map (fun ke => dot ke e)
      let jm := argmaxFirst sims
      if thr ≤ jm.2 then
        dedupe_scan thr kept keptE
          (dupes ++ [mkDupRec it ((kept.get? jm.1).getD default) jm.2]) rest
      else
        dedupe_scan thr (kept ++ [it]) (keptE ++ [e]) dupes rest

/-- Everything in `greedy_dedupe` after the `pub_fetch_pairs` list has
been computed: sort the indices, permute items and vectors, scan. -/
def dedupe_after_pairs (pairs : List (Int × Int)) (items : List Item)
    (embs : List (List Rat)) (thr : Rat) : List Item × List DupRec :=
  let idxs := dedupe_idxs pairs items.length
  let items_s := idxs.map (fun k => (items.get? k).getD default)
  let E := idxs.map (fun k => (embs.get? k).getD [])
  dedupe_scan thr [] [] [] (items_s.zip E)

/-- The `pub_fetch_pairs` list of `greedy_dedupe`: per item, the parsed
(published, fetched) sort-key pair. -/
def dedupe_pairs (fromiso : Str → Option Int) (now : Int) (items : List Item) :
    List (Int × Int) :=
  items.map (fun it =>
    (parse_dt fromiso now it.published_at it.fetched_at,
     parse_dt fromiso now it.fetched_at it.fetched_at))

/-- Embedding of `greedy_dedupe` from `filter.py`. -/
def greedy_dedupe (fromiso : Str → Option Int) (now : Int) (items : List Item)
    (embs : List (List Rat)) (thr : Rat) : List Item × List DupRec :=
  dedupe_after_pairs (dedupe_pairs fromiso now items) items embs thr

/-- Modelled from the claim's words: the effective timestamp of an item is
published_at if parseable, else fetched_at if parseable, else the process
time at evaluation; it never fails. -/
def effective_ts (fromiso : Str → Option Int) (now : Int) (it : Item) : Int :=
  match it.published_at.bind (candVal fromiso) with
  | some t => t
  | none =>
    match it.fetched_at.bind (candVal fromiso) with
    | some t => t
    | none => now

/-- Modelled from the claim's words: the fetched-timestamp component of
the sort key. -/
def fetched_ts (fromiso : Str → Option Int) (now : Int) (it : Item) : Int :=
  (it.fetched_at.bind (candVal fromiso)).getD now

/-- Modelled from the claim's words: the sort key
(effective published timestamp, fetched timestamp) of an item. -/
def claim_key (fromiso : Str → Option Int) (now : Int) (it : Item) : Int × Int :=
  (effective_ts fromiso now it, fetched_ts fromiso now it)

/-- Modelled from the claim's words: the evaluation order is the stable
ascending sort of the (item, vector) pairs by the claim sort key. -/
def eval_order (fromiso : Str → Option Int) (now : Int) (items : List Item)
    (embs : List (List Rat)) : List (Item × List Rat) :=
  pysortedBy
    (fun a b => keyLtB (claim_key fromiso now a.1) (claim_key fromiso now b.1))
    (items.zip embs)

/-- Modelled from the claim's words: stable-sort the (item, vector) pairs
ascending by the claim sort key, then run the greedy scan in that order. -/
def dedupe_claim (fromiso : Str → Option Int) (now : Int) (items : List Item)
    (embs : List (List Rat)) (thr : Rat) : List Item × List DupRec :=
  dedupe_scan thr [] [] [] (eval_order fromiso now items embs)

/-- Combined strict order asserting both ascending keys and, on equal
keys, ascending original position: adjacent truth of this relation along
the sorted index list is exactly stability of the sort. -/
def stableStep (pairs : List (Int × Int)) (a b : Nat) : Prop :=
  keyLtB (keyAt pairs a) (keyAt pairs b) = true ∨
    (keyAt pairs a = keyAt pairs b ∧ a < b)

/-- Concrete instantiation of the external ISO-timestamp parser used by
witnesses: a non-empty all-digit string parses to that number of seconds,
anything else fails (standing in for `datetime.fromisoformat` restricted
to a toy input language). -/
def isoToy (s : Str) : Option Int :=
  if s.isEmpty then none
  else if s.all Char.isDigit then
    some (s.foldl (fun acc c => acc * 10 + ((c.toNat - 48 : Nat) : Int)) 0)
  else none

end Filter

namespace Structurer

/-- JSON values as returned by the model of `json.loads`.  Numeric
literals keep their lexeme (the claims never depend on float values);
`NaN`, `Infinity` and `-Infinity`, which Python accepts, are `num`
lexemes. -/
inductive Json where
  | null
  | bool (b : Bool)
  | num (lexeme : Str)
  | str (s : Str)
  | arr (elems : List Json)
  | obj (fields : List (Str × Json))

/-- Whitespace accepted between JSON tokens by Python `json.loads`. -/
def jsWs (c : Char) : Bool := c == ' ' || c == '\t' || c == '\n' || c == '\r'

/-- Skip inter-token whitespace. -/
def skipJsWs (s : Str) : Str := s.dropWhile jsWs

/-- Value of one hexadecimal digit. -/
def hexVal (c : Char) : Option Nat :=
  if '0' ≤ c && c ≤ '9' then some (c.toNat - ('0').toNat)
  else if 'a' ≤ c && c ≤ 'f' then some (c.toNat - ('a').toNat + 10)
  else if 'A' ≤ c && c ≤ 'F' then some (c.toNat - ('A').toNat + 10)
  else none

/-- Decoding of a single-character JSON string escape. -/
def escChar : Char → Option Char
  | '"' => some '"'
  | '\\' => some '\\'
  | '/' => some '/'
  | 'b' => some '\x08'
  | 'f' => some '\x0c'
  | 'n' => some '\n'
  | 'r' => some '\r'
  | 't' => some '\t'
  | _ => none

/-- Lex a JSON string body (after the opening quote): decoded characters
and the remaining input.  Strict mode: raw control characters are
rejected.  `\u` escapes decode one code unit (surrogate pairing is not
modelled; no claim depends on it). -/
def lexString : Str → Option (Str × Str)
  | [] => none
  | c :: rest =>
    if c == '"' then some ([], rest)
    else if c == '\\' then
      match rest with
      | [] => none
      | e :: rest2 =>
        if e == 'u' then
          match rest2 with
          | h1 :: h2 :: h3 :: h4 :: rest3 =>
            match hexVal h1, hexVal h2, hexVal h3, hexVal h4 with
            | some a, some b, some c2, some d =>
              (lexString rest3).map (fun pr =>
                (Char.ofNat (((a * 16 + b) * 16 + c2) * 16 + d) :: pr.1, pr.2))
            | _, _, _, _ => none
          | _ => none
        else
          match escChar e with
          | some ec => (lexString rest2).map (fun pr => (ec :: pr.1, pr.2))
          | none => none
    else if c.toNat < 32 then none
    else (lexString rest).map (fun pr => (c :: pr.1, pr.2))

/-- Longest leading run of decimal digits. -/
def spanDigits : Str → Str × Str
  | [] => ([], [])
  | c :: rest =>
    if c.isDigit then
      let pr := spanDigits rest
      (c :: pr.1, pr.2)
    else ([], c :: rest)

/-- Integer part of a JSON number: `0` or a nonzero digit followed by
digits (leading zeros are a syntax error). -/
def lexInt : Str → Option (Str × Str)
  | [] => none
  | c :: rest =>
    if c == '0' then some ([c], rest)
    else if c.isDigit then
      let pr := spanDigits rest
      some (c :: pr.1, pr.2)
    else none

/-- Optional fraction part `.digits`. -/
def lexFrac : Str → Str × Str
  | [] => ([], [])
  | c :: rest =>
    if c == '.' then
      match spanDigits rest with
      | ([], _) => ([], c :: rest)
      | (ds, r2) => (c :: ds, r2)
    else ([], c :: rest)

/-- Optional exponent part `e[+-]?digits`. -/
def lexExp : Str → Str × Str
  | [] => ([], [])
  | c :: rest =>
    if c == 'e' || c == 'E' then
      match rest with
      | [] => ([], [c])
      | s2 :: rest2 =>
        if s2 == '+' || s2 == '-' then
          match spanDigits rest2 with
          | ([], _) => ([], c :: s2 :: rest2)
          | (ds, r3) => (c :: s2 :: ds, r3)
        else
          match spanDigits rest with
          | ([], _) => ([], c :: rest)
          | (ds, r3) => (c :: ds, r3)
    else ([], c :: rest)

/-- Lex a JSON number lexeme following the grammar of Python's scanner
regex `(-?(0|[1-9]digits))(.digits)?([eE][+-]?digits)?`. -/
def lexNumber (s : Str) : Option (Str × Str) :=
  let core := fun (t : Str) =>
    (lexInt t).map (fun pr =>
      let fr := lexFrac pr.2
      let ex := lexExp fr.2
      (pr.1 ++ fr.1 ++ ex.1, ex.2))
  match s with
  | [] => none
  | c :: _ =>
    if c == '-' then (core (s.drop 1)).map (fun pr => (c :: pr.1, pr.2))
    else core s

/-- Insertion into the field list of an object under construction;
duplicate keys overwrite in place, as assignment into a Python dict
does. -/
def objSet (k : Str) (v : Json) (fs : List (Str × Json)) : List (Str × Json) :=
  if fs.any (fun kv => kv.1 == k) then
    fs.map (fun kv => if kv.1 == k then (k, v) else kv)
  else fs ++ [(k, v)]

mutual

/-- Recursive-descent model of the scanner behind `json.loads`.  `fuel`
only forces termination; `json_loads` supplies enough for any input. -/
def parseValue : Nat → Str → Option (Json × Str)
  | 0, _ => none
  | fuel + 1, s =>
    match s with
    | [] => none
    | c :: rest =>
      if c == '"' then (lexString rest).map (fun pr => (Json.str pr.1, pr.2))
      else if c == '\x7b' then parseObjItems fuel (skipJsWs rest) []
      else if c == '[' then parseArrItems fuel (skipJsWs rest) []
      else if strPre (("null").toList) s then some (Json.null, s.drop 4)
      else if strPre (("true").toList) s then some (Json.bool true, s.drop 4)
      else if strPre (("false").toList) s then some (Json.bool false, s.drop 5)
      else if strPre (("NaN").toList) s then some (Json.num (("NaN").toList), s.drop 3)
      else if strPre (("Infinity").toList) s then
        some (Json.num (("Infinity").toList), s.drop 8)
      else if strPre (("-Infinity").toList) s then
        some (Json.num (("-Infinity").toList), s.drop 9)
      else (lexNumber s).map (fun pr => (Json.num pr.1, pr.2))

/-- Member loop of a JSON object; the closing brace without a preceding
comma is accepted only for the empty object, and a comma must be followed
by another key, mirroring the strict scanner. -/
def parseObjItems : Nat → Str → List (Str × Json) → Option (Json × Str)
  | 0, _, _ => none
  | fuel + 1, s, acc =>
    match s with
    | [] => none
    | c :: rest =>
      if c == '\x7d' && acc.isEmpty then some (Json.obj [], rest)
      else if c == '"' then
        match lexString rest with
        | none => none
        | some (key, r1) =>
          match skipJsWs r1 with
          | ':' :: r2 =>
            match parseValue fuel (skipJsWs r2) with
            | none => none
            | some (v, r3) =>
              let acc2 := objSet key v acc
              match skipJsWs r3 with
              | ',' :: r4 => parseObjItems fuel (skipJsWs r4) acc2
              | '\x7d' :: r4 => some (Json.obj acc2, r4)
              | _ => none
          | _ => none
      else none

/-- Element loop of a JSON array; a trailing comma is a syntax error. -/
def parseArrItems : Nat → Str → List Json → Option (Json × Str)
  | 0, _, _ => none
  | fuel + 1, s, acc =>
    match s with
    | [] => none
    | c :: _ =>
      if c == ']' && acc.isEmpty then some (Json.arr [], s.drop 1)
      else
        match parseValue fuel s with
        | none => none
        | some (v, r1) =>
          match skipJsWs r1 with
          | ',' :: r2 => parseArrItems fuel (skipJsWs r2) (acc ++ [v])
          | ']' :: r2 => some (Json.arr (acc ++ [v]), r2)
          | _ => none

end

/-- Model of Python `json.loads`: strict parse of the whole string;
trailing non-whitespace raises (returns `none`). -/
def json_loads (s : Str) : Option Json :=
  let t := skipJsWs s
  match parseValue (2 * t.length + 2) t with
  | none => none
  | some (v, rest) => if (skipJsWs rest).isEmpty then some v else none

/-- Embedding of `_strip_code_fences` from `structurer.py`: strip outer
whitespace, strip backtick fencing, strip a leading case-insensitive
`json` label. -/
def _strip_code_fences (s : Str) : Str :=
  let s1 := stripBoth isPyWs s
  let s2 :=
    if strPre (("```").toList) s1 then stripBoth isPyWs (stripBoth (fun c => c == '\x60') s1)
    else s1
  if strPre (("json").toList) (lowerL s2) then stripLead isPyWs (s2.drop 4) else s2

/-- State machine of `_extract_json_braces`: walk from the first opening
brace tracking depth, string-literal state and escape state; return the
first balanced span. -/
def extractGo : Str → Nat → Bool → Bool → Str → Option Str
  | [], _, _, _, _ => none
  | ch :: rest, depth, inStr, esc, acc =>
    if inStr then
      if esc then extractGo rest depth true false (ch :: acc)
      else if ch == '\\' then extractGo rest depth true true (ch :: acc)
      else if ch == '"' then extractGo rest depth false false (ch :: acc)
      else extractGo rest depth true false (ch :: acc)
    else
      if ch == '"' then extractGo rest depth true false (ch :: acc)
      else if ch == '\x7b' then extractGo rest (depth + 1) false false (ch :: acc)
      else if ch == '\x7d' then
        if depth == 1 then some (ch :: acc).reverse
        else extractGo rest (depth - 1) false false (ch :: acc)
      else extractGo rest depth false false (ch :: acc)

/-- Embedding of `_extract_json_braces` from `structurer.py`. -/
def _extract_json_braces (s : Str) : Option Str :=
  let t := s.dropWhile (fun c => !(c == '\x7b'))
  if t.isEmpty then none else extractGo t 0 false false []

/-- Worker for `stripTrailingCommas`; the fuel argument only forces
structural termination and is supplied as the input length, which every
step strictly decreases below in consumed characters, so it is never
exhausted. -/
def stripTcGo : Nat → Str → Str
  | 0, s => s
  | _ + 1, [] => []
  | fuel + 1, c :: rest =>
    if c == ',' then
      match rest.dropWhile isPyWs with
      | b :: r2 =>
        if b == '\x7d' || b == ']' then b :: stripTcGo fuel r2
        else c :: stripTcGo fuel rest
      | [] => c :: stripTcGo fuel rest
    else c :: stripTcGo fuel rest

/-- Embedding of the trailing-comma cleanup
`re.sub(",\\s*([}\\]])", "\\1", s)`: one left-to-right pass replacing a
comma followed by whitespace and a closing bracket by the bracket
alone (also inside string literals, exactly as the regex does). -/
def stripTrailingCommas (s : Str) : Str := stripTcGo s.length s

/-- Embedding of `json_from_text` from `structurer.py`.  The second
component records whether the raw text was archived to a
`llm_bad_output_*.txt` side file (the only effect of the two failure
paths). -/
def json_from_text (raw : Str) : Option Json × Bool :=
  if raw.isEmpty then (none, false)
  else
    let s := _strip_code_fences raw
    match json_loads s with
    | some v => (some v, false)
    | none =>
      match _extract_json_braces s with
      | some ostr =>
        match json_loads ostr with
        | some v => (some v, false)
        | none =>
          match json_loads (stripTrailingCommas ostr) with
          | some v => (some v, false)
          | none => (none, true)
      | none => (none, true)

/-- Input item fields read by the batch loop of `structure` (the fields
that flow into an error record). -/
structure SrcItem where
  id : Option Str
  title : Option Str
  url : Option Str
deriving DecidableEq, Inhabited

/-- Error record appended by `structure` when an item exhausts its
attempts. -/
structure ErrRec where
  id : Option Str
  title : Option Str
  url : Option Str
  error : Str
deriving DecidableEq

/-- Embedding of the retry loop of `_structure_one`.  The body of one
attempt (external text-generation call, parse, normalisation, schema
validation) is abstracted as `attempt n`, the outcome of attempt `n`;
`Except.error` models the raised exception message.  The loop runs the
body for attempt 0, on failure sleeps and reruns it as attempt 1, and on
a second failure raises the second error. -/
def _structure_one {β : Type} (attempt : Nat → Except Str β) : Except Str β :=
  match attempt 0 with
  | Except.ok o => Except.ok o
  | Except.error _ =>
    match attempt 1 with
    | Except.ok o => Except.ok o
    | Except.error e2 => Except.error e2

/-- Error record for item `it` with message `e`. -/
def mkErrRec (it : SrcItem) (e : Str) : ErrRec :=
  { id := it.id, title := it.title, url := it.url, error := e }

/-- Embedding of the batch loop of `structure` from `structurer.py`
(named `structure_batch` because `structure` is a Lean keyword): each
item is passed through `_structure_one` and appended to exactly one of
the structured list or the error list. -/
def structure_batch {β : Type} (attempt : SrcItem → Nat → Except Str β)
    (items : List SrcItem) : List β × List ErrRec :=
  items.foldl (fun acc it =>
    match _structure_one (attempt it) with
    | Except.ok o => (acc.1 ++ [o], acc.2)
    | Except.error e => (acc.1, acc.2 ++ [mkErrRec it e])) ([], [])

/-- Helper: the successful results extracted from one item. -/
def okPart {β : Type} (attempt : SrcItem → Nat → Except Str β) (it : SrcItem) :
    Option β :=
  match _structure_one (attempt it) with
  | Except.ok o => some o
  | Except.error _ => none

/-- Helper: the error record extracted from one item. -/
def errPart {β : Type} (attempt : SrcItem → Nat → Except Str β) (it : SrcItem) :
    Option ErrRec :=
  match _structure_one (attempt it) with
  | Except.ok _ => none
  | Except.error e => some (mkErrRec it e)

end Structurer

namespace DbLoader

/-- Value stored in a Mongo document: either a JSON value carried over
from the structured article, or a `datetime` (the TTL timestamps). -/
inductive BVal where
  | js (v : Structurer.Json)
  | time (t : Int)

/-- A BSON document, embedded as an association list with unique keys
(Python dict). -/
abbrev Doc := List (Str × BVal)

/-- Python `dict.pop(k, None)`. -/
def dictPop {β : Type} (k : Str) (d : List (Str × β)) : List (Str × β) :=
  d.filter (fun kv => !(kv.1 == k))

/-- Python `d[k] = v`: replace in place if present, else append. -/
def dictSet {β : Type} (k : Str) (v : β) (d : List (Str × β)) : List (Str × β) :=
  if d.any (fun kv => kv.1 == k) then d.map (fun kv => if kv.1 == k then (k, v) else kv)
  else d ++ [(k, v)]

/-- Python `d.get(k)`. -/
def dictGet {β : Type} (k : Str) (d : List (Str × β)) : Option β :=
  (d.find? (fun kv => kv.1 == k)).map (fun kv => kv.2)

/-- The fixed retention horizon `timedelta(hours=36)`, in seconds. -/
def HORIZON_SECONDS : Int := 36 * 3600

/-- Embedding of `_make_doc` from `db_loader.py`: copy the raw article,
drop `entities`, derive the `_id` key from a non-blank string `id` field
(else a fresh uuid4, the parameter `freshUuid`), mirror it into
`article_id`, and stamp `stored_at = now` and
`expires_at = now + 36 hours`. -/
def _make_doc (now : Int) (freshUuid : Str) (raw : List (Str × Structurer.Json)) : Doc :=
  let doc : Doc := raw.map (fun kv => (kv.1, BVal.js kv.2))
  let doc := dictPop (("entities").toList) doc
  let idv : Str :=
    match dictGet (("id").toList) doc with
    | some (BVal.js (Structurer.Json.str s)) =>
      if (stripBoth isPyWs s).isEmpty then freshUuid else s
    | _ => freshUuid
  let doc := dictSet (("_id").toList) (BVal.js (Structurer.Json.str idv)) doc
  let doc := dictSet (("article_id").toList) (BVal.js (Structurer.Json.str idv)) doc
  let doc := dictSet (("stored_at").toList) (BVal.time now) doc
  dictSet (("expires_at").toList) (BVal.time (now + HORIZON_SECONDS)) doc

/-- The collection, embedded as a map from `_id` keys to documents. -/
abbrev Store := List (Str × Doc)

/-- The `$set` payload of `_upsert_one`: the document without its key. -/
def upsert_payload (doc : Doc) : Doc := dictPop (("_id").toList) doc

/-- Key under which `_upsert_one` addresses the collection. -/
def docKey (doc : Doc) : Str :=
  match dictGet (("_id").toList) doc with
  | some (BVal.js (Structurer.Json.str s)) => s
  | _ => []

/-- Mongo `$set` semantics: overwrite the listed fields of `base`, keep
any others. -/
def dictMerge {β : Type} (base upd : List (Str × β)) : List (Str × β) :=
  upd.foldl (fun acc kv => dictSet kv.1 kv.2 acc) base

/-- Embedding of `_upsert_one` from `db_loader.py`:
`update_one({_id: doc[_id]}, {$set: doc without _id}, upsert=True)`.
Returns the updated store and the "inserted"/"updated" result string. -/
def _upsert_one (store : Store) (doc : Doc) : Store × Str :=
  let key := docKey doc
  let to_set := upsert_payload doc
  if store.any (fun kv => kv.1 == key) then
    (store.map (fun kv => if kv.1 == key then (key, dictMerge kv.2 to_set) else kv),
     ("updated").toList)
  else
    (store ++ [(key, dictMerge [((("_id").toList), BVal.js (Structurer.Json.str key))] to_set)],
     ("inserted").toList)

/-- Connection environment of `save`: whether the n-th primary connection
attempt succeeds, whether a fallback URI is configured, and whether the
fallback connection succeeds.  The exponential sleeps between attempts
are real time and are not modelled. -/
structure ConnEnv where
  primary_ok : Nat → Bool
  fallback_configured : Bool
  fallback_ok : Bool

/-- The attempt ceiling `max_attempts = 4` of `save`. -/
def MAX_ATTEMPTS : Nat := 4

/-- The `while attempts < max_attempts and client is None` loop of
`save`, trying numbered attempts until one succeeds or the ceiling is
reached. -/
def connect_loop (ok : Nat → Bool) : Nat → Nat → Bool
  | _, 0 => false
  | attempt, remaining + 1 => ok attempt || connect_loop ok (attempt + 1) remaining

/-- Whether the primary connection loop obtains a client. -/
def primary_connected (env : ConnEnv) : Bool :=
  connect_loop env.primary_ok 1 MAX_ATTEMPTS

/-- Whether `save` obtains any client (primary loop, then the optional
fallback target). -/
def store_connected (env : ConnEnv) : Bool :=
  primary_connected env || (env.fallback_configured && env.fallback_ok)

/-- Outcome string of one successful `_upsert_one`. -/
inductive UpsertKind where
  | inserted
  | updated
deriving DecidableEq

/-- Per-item counting loop of `save`; `write a` abstracts
`_upsert_one(coll, _make_doc(a))` against the live collection, with
`Except.error` modelling a raised exception.  Returns
(inserted, updated, failed); the mutable counters of the Python loop are
embedded as a structural recursion, the accumulation order being
irrelevant to the totals. -/
def save_counts {α : Type} (write : α → Except Str UpsertKind) :
    List α → Nat × Nat × Nat
  | [] => (0, 0, 0)
  | a :: rest =>
    let c := save_counts write rest
    match write a with
    | Except.ok UpsertKind.inserted => (c.1 + 1, c.2.1, c.2.2)
    | Except.ok UpsertKind.updated => (c.1, c.2.1 + 1, c.2.2)
    | Except.error _ => (c.1, c.2.1, c.2.2 + 1)

/-- Embedding of `save` from `db_loader.py`: empty input returns 0; an
unreachable store (primary loop exhausted, fallback absent or failing)
skips the write cycle and returns 0; otherwise every item is written
independently and `inserted + updated` is returned. -/
def save {α : Type} (env : ConnEnv) (write : α → Except Str UpsertKind)
    (items : List α) : Nat :=
  if items.isEmpty then 0
  else if store_connected env then
    let c := save_counts write items
    c.1 + c.2.1
  else 0

/-- Value of the LAST occurrence of a key in an association list; for a
list with unique keys it agrees with `dictGet`, and it is what the
left-to-right overwrite semantics of `dictMerge` observes. -/
def lastGet {β : Type} (k : Str) (d : List (Str × β)) : Option β :=
  (d.reverse.find? (fun kv => kv.1 == k)).map (fun kv => kv.2)

/-- Helper: whether the write of one document succeeds. -/
def writeOk {α : Type} (write : α → Except Str UpsertKind) (a : α) : Bool :=
  match write a with
  | Except.ok _ => true
  | Except.error _ => false

end DbLoader

section Theorems

open Filter Structurer DbLoader

/-- Helper: an existential impact hypothesis is exactly
`title_has_impact = true`. -/
theorem title_has_impact_of_exists (title : Str)
    (himp : (∃ k ∈ IMPACT_KEYWORDS, strIn k (lowerL title) = true) ∨
      (∃ p ∈ IMPACT_PATTERNS, re_search p title = true)) :
    title_has_impact title = true := by
  unfold title_has_impact
  rcases himp with h | h
  · exact Bool.or_eq_true_iff.mpr (Or.inl (List.any_eq_true.mpr h))
  · exact Bool.or_eq_true_iff.mpr (Or.inr (List.any_eq_true.mpr h))

/-- C2: a title containing (case-insensitively, as a substring) some
negative keyword and also containing an impact keyword or matching an
impact regex pattern is always kept by `title_should_keep`, with reason
`impact_exception(term)` for the matched negative term. -/
theorem C2_impact_exception_precedence (title : Str)
    (hneg : ∃ neg ∈ NEG_TITLE_KEYWORDS, strIn neg (lowerL title) = true)
    (himp : (∃ k ∈ IMPACT_KEYWORDS, strIn k (lowerL title) = true) ∨
      (∃ p ∈ IMPACT_PATTERNS, re_search p title = true)) :
    ∃ t ∈ NEG_TITLE_KEYWORDS, strIn t (lowerL title) = true ∧
      title_should_keep title =
        (true, ("impact_exception(").toList ++ t ++ (")").toList) := by
  have himp2 : title_has_impact title = true := title_has_impact_of_exists title himp
  have hsome : (NEG_TITLE_KEYWORDS.find? (fun neg => strIn neg (lowerL title))).isSome := by
    rw [List.find?_isSome]
    exact hneg
  obtain ⟨t0, hfind⟩ := Option.isSome_iff_exists.mp hsome
  have hp : strIn t0 (lowerL title) = true := by
    have h2 := List.find?_some hfind
    simpa using h2
  refine ⟨t0, List.mem_of_find?_eq_some hfind, hp, ?_⟩
  simp only [title_should_keep]
  rw [hfind, himp2]
  simp

/-- Witness for C2 at a concrete title containing the negative keyword
`bollywood` and the impact keyword `ipo`. -/
theorem C2_impact_exception_precedence_witness :
    ∃ t ∈ NEG_TITLE_KEYWORDS,
      strIn t (lowerL (("Bollywood studio IPO opens").toList)) = true ∧
      title_should_keep (("Bollywood studio IPO opens").toList) =
        (true, ("impact_exception(").toList ++ t ++ (")").toList) :=
  C2_impact_exception_precedence (("Bollywood studio IPO opens").toList)
    (by decide) (Or.inl (by decide))

/-- C10: negative matching is a substring test on the lowercased title:
any drop exhibits a negative keyword occurring as a substring, any
substring hit without impact signals drops the title, and the concrete
title "New equipment plant" — which contains no negative keyword as a
standalone word — is dropped with reason `negative_keyword(pm)` because
"equipment" contains "pm". -/
theorem C10_negative_matching_is_substring :
    (∀ title : Str, (title_should_keep title).1 = false →
      ∃ neg ∈ NEG_TITLE_KEYWORDS, strIn neg (lowerL title) = true) ∧
    (∀ title : Str, (∃ neg ∈ NEG_TITLE_KEYWORDS, strIn neg (lowerL title) = true) →
      title_has_impact title = false → (title_should_keep title).1 = false) ∧
    title_should_keep (("New equipment plant").toList) =
      (false, ("negative_keyword(pm)").toList) ∧
    (∀ neg ∈ NEG_TITLE_KEYWORDS,
      wordOccurs neg (("New equipment plant").toList) = false) := by
  refine ⟨?_, ?_, by decide, by decide⟩
  · intro title hdrop
    simp only [title_should_keep] at hdrop
    rcases hfind : NEG_TITLE_KEYWORDS.find? (fun neg => strIn neg (lowerL title)) with
      _ | t0
    · rw [hfind] at hdrop
      simp at hdrop
    · have hp : strIn t0 (lowerL title) = true := by
        have h2 := List.find?_some hfind
        simpa using h2
      exact ⟨t0, List.mem_of_find?_eq_some hfind, hp⟩
  · intro title hneg hnoimp
    have hsome : (NEG_TITLE_KEYWORDS.find? (fun neg => strIn neg (lowerL title))).isSome := by
      rw [List.find?_isSome]
      exact hneg
    obtain ⟨t0, hfind⟩ := Option.isSome_iff_exists.mp hsome
    simp only [title_should_keep]
    rw [hfind, hnoimp]
    simp

/-- Witness for C10, instantiating the two universally quantified
conjuncts at the concrete dropped title. -/
theorem C10_negative_matching_is_substring_witness :
    (∃ neg ∈ NEG_TITLE_KEYWORDS,
      strIn neg (lowerL (("New equipment plant").toList)) = true) ∧
    (title_should_keep (("New equipment plant").toList)).1 = false :=
  ⟨C10_negative_matching_is_substring.1 (("New equipment plant").toList) (by decide),
   C10_negative_matching_is_substring.2.2.1 ▸ (by decide)⟩

/-- Helper: the batch fold of `structure_batch` splits the input into the
per-item successes and the per-item failures, in input order. -/
theorem structure_batch_eq {β : Type} (attempt : SrcItem → Nat → Except Str β)
    (items : List SrcItem) :
    structure_batch attempt items =
      (items.filterMap (okPart attempt), items.filterMap (errPart attempt)) := by
  suffices h : ∀ (l : List SrcItem) (acc : List β × List ErrRec),
      l.foldl (fun acc it =>
        match _structure_one (attempt it) with
        | Except.ok o => (acc.1 ++ [o], acc.2)
        | Except.error e => (acc.1, acc.2 ++ [mkErrRec it e])) acc =
      (acc.1 ++ l.filterMap (okPart attempt), acc.2 ++ l.filterMap (errPart attempt)) by
    have h2 := h items ([], [])
    simpa [structure_batch] using h2
  intro l
  induction l with
  | nil => intro acc; simp
  | cons it rest ih =>
    intro acc
    simp only [List.foldl_cons, List.filterMap_cons]
    rcases h : _structure_one (attempt it) with e | o
    · simp only [h, okPart, errPart, ih]
      simp [h]
    · simp only [h, okPart, errPart, ih]
      simp [h]

/-- C5: the structuring batch loop gives every input item exactly one
fate, in input order; the lengths of the two outputs sum to the input
length; the batch over an appended list is the append of the batches
(failure of one item never blocks the others); the per-item retry loop
consults at most attempts 0 and 1; and when both attempts fail only the
second (final) attempt's message is recorded. -/
theorem C5_structure_batch_partition {β : Type}
    (attempt : SrcItem → Nat → Except Str β) (items : List SrcItem) :
    structure_batch attempt items =
      (items.filterMap (okPart attempt), items.filterMap (errPart attempt)) ∧
    (structure_batch attempt items).1.length +
      (structure_batch attempt items).2.length = items.length ∧
    (∀ xs ys : List SrcItem,
      structure_batch attempt (xs ++ ys) =
        ((structure_batch attempt xs).1 ++ (structure_batch attempt ys).1,
         (structure_batch attempt xs).2 ++ (structure_batch attempt ys).2)) ∧
    (∀ f g : Nat → Except Str β, f 0 = g 0 → f 1 = g 1 →
      _structure_one f = _structure_one g) ∧
    (∀ (f : Nat → Except Str β) (e1 e2 : Str), f 0 = Except.error e1 →
      f 1 = Except.error e2 → _structure_one f = Except.error e2) := by
  have hlen : ∀ l : List SrcItem,
      (l.filterMap (okPart attempt)).length + (l.filterMap (errPart attempt)).length =
        l.length := by
    intro l
    induction l with
    | nil => simp
    | cons it rest ih =>
      simp only [List.filterMap_cons]
      rcases h : _structure_one (attempt it) with e | o
      · simp only [okPart, errPart, h]
        simp only [List.length_cons]
        omega
      · simp only [okPart, errPart, h]
        simp only [List.length_cons]
        omega
  refine ⟨structure_batch_eq attempt items, ?_, ?_, ?_, ?_⟩
  · rw [structure_batch_eq attempt items]
    exact hlen items
  · intro xs ys
    rw [structure_batch_eq, structure_batch_eq, structure_batch_eq]
    simp [List.filterMap_append]
  · intro f g h0 h1
    simp only [_structure_one, h0, h1]
  · intro f e1 e2 h0 h1
    simp only [_structure_one, h0, h1]

/-- Witness for C5 at a concrete two-item batch in which the first item
succeeds on the second attempt and the second item fails twice; the
retry-count and final-error conjuncts are instantiated on the failing
attempt function. -/
theorem C5_structure_batch_partition_witness :
    (structure_batch
        (fun it n =>
          if it.id = some (("a").toList) then
            (if n = 0 then Except.error (("boom1").toList) else Except.ok 7)
          else Except.error (("final").toList))
        [{ id := some (("a").toList), title := none, url := none },
         { id := some (("b").toList), title := none, url := none }]).1.length +
      (structure_batch
        (fun it n =>
          if it.id = some (("a").toList) then
            (if n = 0 then Except.error (("boom1").toList) else Except.ok 7)
          else Except.error (("final").toList))
        [{ id := some (("a").toList), title := none, url := none },
         { id := some (("b").toList), title := none, url := none }]).2.length = 2 ∧
    (_structure_one (fun n =>
        if n = 0 then Except.error (("boom1").toList)
        else Except.error (("boom2").toList)) : Except Str Nat) =
      Except.error (("boom2").toList) :=
  ⟨(C5_structure_batch_partition _ _).2.1,
   (C5_structure_batch_partition
      (fun _ _ => Except.error [] : SrcItem → Nat → Except Str Nat) []).2.2.2.2
     _ (("boom1").toList) (("boom2").toList) rfl rfl⟩

/-- Helper: the counting loop of `save` relates the three counters to the
input: inserted + updated is the number of successfully written
documents, and adding the failures recovers the batch size. -/
theorem save_counts_spec {α : Type} (write : α → Except Str UpsertKind)
    (items : List α) :
    (save_counts write items).1 + (save_counts write items).2.1 =
      (items.filter (writeOk write)).length ∧
    (save_counts write items).1 + (save_counts write items).2.1 +
      (save_counts write items).2.2 = items.length := by
  induction items with
  | nil => simp [save_counts]
  | cons a rest ih =>
    obtain ⟨ih1, ih2⟩ := ih
    rcases h : write a with e | k
    · have hw : writeOk write a = false := by simp [writeOk, h]
      constructor
      · simp only [save_counts, h, List.filter_cons, hw, Bool.false_eq_true, if_false]
        omega
      · simp only [save_counts, h, List.length_cons]
        omega
    · have hw : writeOk write a = true := by simp [writeOk, h]
      rcases k with _ | _ <;>
        refine ⟨?_, ?_⟩ <;>
          · simp only [save_counts, h, List.filter_cons, hw, if_true, List.length_cons]
            omega

/-- C7: with a non-empty batch, if all `MAX_ATTEMPTS` primary connection
attempts fail and the fallback is unconfigured or also fails, `save`
skips the write cycle and returns 0 (it is a total function, so it never
raises); and when the store is reachable, `save` returns exactly the
number of documents whose individual write succeeds, with the failed
documents accounting for the remainder of the batch — so one throwing
document is counted as failed and does not affect the others. -/
theorem C7_save_unavailable_skips_and_write_isolation {α : Type}
    (env : ConnEnv) (write : α → Except Str UpsertKind) (items : List α) :
    (items ≠ [] →
      (∀ i, 1 ≤ i → i ≤ MAX_ATTEMPTS → env.primary_ok i = false) →
      (env.fallback_configured = false ∨ env.fallback_ok = false) →
      save env write items = 0) ∧
    (store_connected env = true →
      save env write items = (items.filter (writeOk write)).length ∧
      save env write items + (save_counts write items).2.2 = items.length) := by
  constructor
  · intro hne hp hfb
    have hprim : primary_connected env = false := by
      simp only [primary_connected, MAX_ATTEMPTS, connect_loop]
      rw [hp 1 (by omega) (by simp [MAX_ATTEMPTS]), hp 2 (by omega) (by simp [MAX_ATTEMPTS]),
        hp 3 (by omega) (by simp [MAX_ATTEMPTS]), hp 4 (by omega) (by simp [MAX_ATTEMPTS])]
      rfl
    have hconn : store_connected env = false := by
      rcases hfb with h | h <;> simp [store_connected, hprim, h]
    have hemp : items.isEmpty = false := by
      cases items with
      | nil => exact absurd rfl hne
      | cons a rest => rfl
    simp [save, hemp, hconn]
  · intro hconn
    rcases items with _ | ⟨a, rest⟩
    · simp [save, save_counts]
    · have h1 := (save_counts_spec write (a :: rest)).1
      have h2 := (save_counts_spec write (a :: rest)).2
      constructor
      · simp only [save, hconn, List.isEmpty_cons]
        simpa using h1
      · simp only [save, hconn, List.isEmpty_cons]
        simp only [Bool.false_eq_true, if_false, if_true]
        omega

/-- Witness for C7: a concrete unreachable environment returns 0 on a
one-item batch, and a concrete reachable environment with one failing and
one succeeding document persists exactly one. -/
theorem C7_save_unavailable_skips_and_write_isolation_witness :
    save ({ primary_ok := fun _ => false, fallback_configured := false,
            fallback_ok := false } : ConnEnv)
        (fun _ => Except.error (("down").toList) : Nat → Except Str UpsertKind)
        [5] = 0 ∧
    save ({ primary_ok := fun i => i == 2, fallback_configured := false,
            fallback_ok := false } : ConnEnv)
        (fun a => if a == 5 then Except.error (("boom").toList)
          else Except.ok UpsertKind.inserted : Nat → Except Str UpsertKind)
        [5, 6] = 1 := by
  constructor
  · exact (C7_save_unavailable_skips_and_write_isolation _ _ _).1 (by decide)
      (fun i _ _ => rfl) (Or.inl rfl)
  · have h := (C7_save_unavailable_skips_and_write_isolation
      ({ primary_ok := fun i => i == 2, fallback_configured := false,
         fallback_ok := false } : ConnEnv)
      (fun a => if a == 5 then Except.error (("boom").toList)
        else Except.ok UpsertKind.inserted : Nat → Except Str UpsertKind)
      [5, 6]).2 (by decide)
    rw [h.1]
    decide

/-- Helper: a failed `any` over the key predicate means the key is not
found. -/
theorem find_none_of_any_false {β : Type} (k : Str) (d : List (Str × β))
    (ha : d.any (fun kv => kv.1 == k) = false) :
    List.find? (fun kv => kv.1 == k) d = none := by
  rw [List.find?_eq_none]
  exact fun kv hmem => (List.any_eq_false.mp ha) kv hmem

/-- Helper: lookup distributes over list append. -/
theorem dictGet_append {β : Type} (k : Str) :
    ∀ d1 d2 : List (Str × β),
      dictGet k (d1 ++ d2) =
        match dictGet k d1 with
        | some v => some v
        | none => dictGet k d2
  | [], _ => rfl
  | kv :: d1, d2 => by
    rcases hk : kv.1 == k with _ | _
    · simpa [dictGet, List.find?, hk] using dictGet_append k d1 d2
    · simp [dictGet, List.find?, hk]

/-- Helper: looking up `k` after replacing every `k`-entry value via `g`
transforms the looked-up value by `g`. -/
theorem dictGet_map_upd {β : Type} (k : Str) (g : β → β) :
    ∀ d : List (Str × β),
      dictGet k (d.map (fun kv => if kv.1 == k then (k, g kv.2) else kv)) =
        (dictGet k d).map g
  | [] => rfl
  | kv :: d => by
    rcases hk : kv.1 == k with _ | _
    · have hif : (if (kv.1 == k) = true then (k, g kv.2) else kv) = kv := by
        simp [hk]
      simp only [List.map_cons, hif]
      simpa [dictGet, List.find?, hk] using dictGet_map_upd k g d
    · have hif : (if (kv.1 == k) = true then (k, g kv.2) else kv) = (k, g kv.2) := by
        simp [hk]
      simp only [List.map_cons, hif]
      simp [dictGet, List.find?, hk]

/-- Helper: replacing every `j`-entry leaves lookups of a key `k ≠ j`
unchanged. -/
theorem dictGet_map_upd_ne {β : Type} (k j : Str) (g : β → β) (h : k ≠ j) :
    ∀ d : List (Str × β),
      dictGet k (d.map (fun kv => if kv.1 == j then (j, g kv.2) else kv)) =
        dictGet k d
  | [] => rfl
  | kv :: d => by
    have hjk : (j == k) = false := beq_eq_false_iff_ne.mpr (fun hh => h hh.symm)
    rcases hk : kv.1 == j with _ | _
    · have hif : (if (kv.1 == j) = true then (j, g kv.2) else kv) = kv := by
        simp [hk]
      simp only [List.map_cons, hif]
      rcases hkk : kv.1 == k with _ | _
      · simpa [dictGet, List.find?, hkk] using dictGet_map_upd_ne k j g h d
      · simp [dictGet, List.find?, hkk]
    · have hif : (if (kv.1 == j) = true then (j, g kv.2) else kv) = (j, g kv.2) := by
        simp [hk]
      have hkk : (kv.1 == k) = false := by
        have hkv : kv.1 = j := by simpa using hk
        rw [hkv]
        exact hjk
      simp only [List.map_cons, hif]
      simpa [dictGet, List.find?, hjk, hkk] using dictGet_map_upd_ne k j g h d

/-- Helper: a key is found after `dictSet` with its new value. -/
theorem dictGet_dictSet_self {β : Type} (k : Str) (v : β) (d : List (Str × β)) :
    dictGet k (dictSet k v d) = some v := by
  unfold dictSet
  rcases ha : d.any (fun kv => kv.1 == k) with _ | _
  · simp only [Bool.false_eq_true, if_false]
    rw [dictGet_append]
    have hn : dictGet k d = none := by
      unfold dictGet
      rw [find_none_of_any_false k d ha]
      rfl
    rw [hn]
    simp [dictGet, List.find?]
  · simp only [if_true]
    rw [dictGet_map_upd k (fun _ => v) d]
    obtain ⟨kv, hmem, hkv⟩ := List.any_eq_true.mp ha
    rcases hf : List.find? (fun kv2 => kv2.1 == k) d with _ | w
    · exact absurd hkv (by simpa using List.find?_eq_none.mp hf kv hmem)
    · simp [dictGet, hf]

/-- Helper: `dictSet` on a different key does not disturb a lookup. -/
theorem dictGet_dictSet_ne {β : Type} (k j : Str) (v : β) (d : List (Str × β))
    (h : k ≠ j) : dictGet k (dictSet j v d) = dictGet k d := by
  have hjk : (j == k) = false := beq_eq_false_iff_ne.mpr (fun hh => h hh.symm)
  unfold dictSet
  rcases ha : d.any (fun kv => kv.1 == j) with _ | _
  · simp only [Bool.false_eq_true, if_false]
    rw [dictGet_append]
    rcases hd : dictGet k d with _ | w
    · simp [dictGet, List.find?, hjk]
    · rfl
  · simp only [if_true]
    exact dictGet_map_upd_ne k j (fun _ => v) h d

/-- Helper: the popped key is gone. -/
theorem dictGet_dictPop_self {β : Type} (k : Str) (d : List (Str × β)) :
    dictGet k (dictPop k d) = none := by
  unfold dictGet dictPop
  have hn : List.find? (fun kv => kv.1 == k) (d.filter (fun kv => !(kv.1 == k))) =
      none := by
    rw [List.find?_eq_none]
    intro kv hmem
    have := List.of_mem_filter hmem
    simpa using this
  rw [hn]
  rfl

/-- Helper: popping a different key does not disturb a lookup. -/
theorem dictGet_dictPop_ne {β : Type} (k j : Str) (d : List (Str × β))
    (h : k ≠ j) : dictGet k (dictPop j d) = dictGet k d := by
  induction d with
  | nil => rfl
  | cons kv d ih =>
    rcases hk : kv.1 == j with _ | _
    · simp only [dictPop, List.filter_cons, hk, Bool.not_false, if_true]
      rcases hkk : kv.1 == k with _ | _
      · simpa [dictGet, dictPop, List.find?, hkk] using ih
      · simp [dictGet, List.find?, hkk]
    · have hkk : (kv.1 == k) = false := by
        have hkv : kv.1 = j := by simpa using hk
        rw [hkv]
        exact beq_eq_false_iff_ne.mpr (fun hh => h hh.symm)
      simp only [dictPop, List.filter_cons, hk, Bool.not_true, Bool.false_eq_true, if_false]
      simpa [dictGet, dictPop, List.find?, hkk] using ih

/-- Helper: lookup in a single-entry list. -/
theorem dictGet_single {β : Type} (k : Str) (u : Str × β) :
    dictGet k [u] = (if u.1 == k then some u.2 else none) := by
  rcases hu : u.1 == k with _ | _ <;> simp [dictGet, List.find?, hu]

/-- Helper: peeling one element off the front of `lastGet`. -/
theorem lastGet_cons {β : Type} (k : Str) (u : Str × β) (us : List (Str × β)) :
    lastGet k (u :: us) =
      match lastGet k us with
      | some v => some v
      | none => if u.1 == k then some u.2 else none := by
  show dictGet k ((u :: us).reverse) = _
  rw [List.reverse_cons, dictGet_append k us.reverse [u], dictGet_single]
  rfl

/-- Helper: the last occurrence of `k` after `dictSet k v` carries `v`. -/
theorem lastGet_dictSet_self {β : Type} (k : Str) (v : β) (d : List (Str × β)) :
    lastGet k (dictSet k v d) = some v := by
  unfold dictSet
  rcases ha : d.any (fun kv => kv.1 == k) with _ | _
  · simp only [Bool.false_eq_true, if_false]
    show dictGet k ((d ++ [(k, v)]).reverse) = some v
    rw [List.reverse_append]
    simp [dictGet, List.find?]
  · simp only [if_true]
    show dictGet k ((d.map (fun kv => if kv.1 == k then (k, v) else kv)).reverse) = some v
    rw [← List.map_reverse]
    rw [dictGet_map_upd k (fun _ => v) d.reverse]
    obtain ⟨kv, hmem, hkv⟩ := List.any_eq_true.mp ha
    rcases hf : List.find? (fun kv2 => kv2.1 == k) d.reverse with _ | w
    · exact absurd hkv
        (by simpa using List.find?_eq_none.mp hf kv (List.mem_reverse.mpr hmem))
    · simp [dictGet, hf]

/-- Helper: `dictSet` on a different key does not disturb the last
occurrence. -/
theorem lastGet_dictSet_ne {β : Type} (k j : Str) (v : β) (d : List (Str × β))
    (h : k ≠ j) : lastGet k (dictSet j v d) = lastGet k d := by
  have hjk : (j == k) = false := beq_eq_false_iff_ne.mpr (fun hh => h hh.symm)
  unfold dictSet
  rcases ha : d.any (fun kv => kv.1 == j) with _ | _
  · simp only [Bool.false_eq_true, if_false]
    show dictGet k ((d ++ [(j, v)]).reverse) = lastGet k d
    rw [List.reverse_append]
    simp [dictGet, List.find?, hjk]
    rfl
  · simp only [if_true]
    show dictGet k ((d.map (fun kv => if kv.1 == j then (j, v) else kv)).reverse) =
      lastGet k d
    rw [← List.map_reverse]
    exact dictGet_map_upd_ne k j (fun _ => v) h d.reverse

/-- Helper: popping a different key does not disturb the last
occurrence. -/
theorem lastGet_dictPop_ne {β : Type} (k j : Str) (d : List (Str × β))
    (h : k ≠ j) : lastGet k (dictPop j d) = lastGet k d := by
  show dictGet k ((d.filter (fun kv => !(kv.1 == j))).reverse) = lastGet k d
  rw [← List.filter_reverse]
  exact dictGet_dictPop_ne k j d.reverse h

/-- Helper: a `$set` merge with a payload whose last `k`-occurrence is
absent leaves `k` untouched in the base. -/
theorem dictGet_dictMerge_of_none {β : Type} (k : Str) :
    ∀ (upd base : List (Str × β)), lastGet k upd = none →
      dictGet k (dictMerge base upd) = dictGet k base
  | [], base, _ => rfl
  | u :: us, base, hl => by
    rw [lastGet_cons] at hl
    rcases lus : lastGet k us with _ | w
    · rw [lus] at hl
      have hu : (u.1 == k) = false := by
        rcases hu2 : u.1 == k with _ | _
        · rfl
        · rw [hu2] at hl
          simp at hl
      have hne : k ≠ u.1 := by
        intro hh
        rw [hh] at hu
        simp at hu
      have hstep : dictMerge base (u :: us) = dictMerge (dictSet u.1 u.2 base) us := rfl
      rw [hstep, dictGet_dictMerge_of_none k us (dictSet u.1 u.2 base) lus,
        dictGet_dictSet_ne k u.1 u.2 base hne]
    · rw [lus] at hl
      simp at hl

/-- Helper: a `$set` merge writes the payload's last `k`-value. -/
theorem dictGet_dictMerge_of_last {β : Type} (k : Str) (v : β) :
    ∀ (upd base : List (Str × β)), lastGet k upd = some v →
      dictGet k (dictMerge base upd) = some v
  | [], base, hl => by
    simp [lastGet, dictGet] at hl
  | u :: us, base, hl => by
    rw [lastGet_cons] at hl
    have hstep : dictMerge base (u :: us) = dictMerge (dictSet u.1 u.2 base) us := rfl
    rcases lus : lastGet k us with _ | w
    · rw [lus] at hl
      rcases hu : u.1 == k with _ | _
      · rw [hu] at hl
        simp at hl
      · rw [hu] at hl
        have hv : u.2 = v := by simpa using hl
        have hk2 : u.1 = k := by simpa using hu
        rw [hstep, dictGet_dictMerge_of_none k us (dictSet u.1 u.2 base) lus, hk2] at *
        rw [← hv]
        exact dictGet_dictSet_self k u.2 base
    · rw [lus] at hl
      have hw : w = v := by simpa using hl
      rw [hstep]
      rw [dictGet_dictMerge_of_last k v us (dictSet u.1 u.2 base) (by rw [lus, hw])]

/-- Helper: after `_upsert_one`, the document stored under the `_id` key
of `doc` is the `$set` payload merged over the previous document when the
key matched, else over the bare `{_id: key}` seed document. -/
theorem upsert_one_store_get (store : Store) (doc : Doc) :
    dictGet (docKey doc) ((_upsert_one store doc).1) =
      some (match dictGet (docKey doc) store with
        | some old => dictMerge old (upsert_payload doc)
        | none =>
          dictMerge [((("_id").toList),
            BVal.js (Structurer.Json.str (docKey doc)))] (upsert_payload doc)) := by
  unfold _upsert_one
  dsimp only
  rcases ha : store.any (fun kv => kv.1 == docKey doc) with _ | _
  · simp only [Bool.false_eq_true, if_false]
    rw [dictGet_append]
    have hnone : dictGet (docKey doc) store = none := by
      unfold dictGet
      rw [find_none_of_any_false _ _ ha]
      rfl
    rw [hnone]
    simp [dictGet, List.find?]
  · simp only [if_true]
    rw [dictGet_map_upd (docKey doc) (fun old => dictMerge old (upsert_payload doc)) store]
    obtain ⟨kv, hmem, hkv⟩ := List.any_eq_true.mp ha
    rcases hf : List.find? (fun kv2 => kv2.1 == docKey doc) store with _ | w
    · exact absurd hkv (by simpa using List.find?_eq_none.mp hf kv hmem)
    · simp [dictGet, hf]

/-- Helper: lookup in a value-mapped association list. -/
theorem dictGet_map_val {β γ : Type} (k : Str) (f : β → γ) :
    ∀ d : List (Str × β),
      dictGet k (d.map (fun kv => (kv.1, f kv.2))) = (dictGet k d).map f
  | [] => rfl
  | kv :: d => by
    rcases hk : kv.1 == k with _ | _
    · simpa [dictGet, List.find?, hk] using dictGet_map_val k f d
    · simp [dictGet, List.find?, hk]

/-- Helper: the TTL stamps of a freshly made document, and the same
stamps as seen by the `$set` payload of its upsert. -/
theorem make_doc_fields (now : Int) (freshUuid : Str)
    (raw : List (Str × Structurer.Json)) :
    dictGet (("expires_at").toList) (_make_doc now freshUuid raw) =
      some (BVal.time (now + HORIZON_SECONDS)) ∧
    dictGet (("stored_at").toList) (_make_doc now freshUuid raw) =
      some (BVal.time now) ∧
    lastGet (("expires_at").toList) (upsert_payload (_make_doc now freshUuid raw)) =
      some (BVal.time (now + HORIZON_SECONDS)) ∧
    lastGet (("stored_at").toList) (upsert_payload (_make_doc now freshUuid raw)) =
      some (BVal.time now) := by
  unfold _make_doc upsert_payload
  dsimp only
  refine ⟨?_, ?_, ?_, ?_⟩
  · rw [dictGet_dictSet_self]
  · rw [dictGet_dictSet_ne _ _ _ _ (by decide), dictGet_dictSet_self]
  · rw [lastGet_dictPop_ne _ _ _ (by decide), lastGet_dictSet_self]
  · rw [lastGet_dictPop_ne _ _ _ (by decide),
      lastGet_dictSet_ne _ _ _ _ (by decide), lastGet_dictSet_self]

/-- Helper: for an article whose `id` field is a non-blank string, the
derived storage key is exactly that string. -/
theorem make_doc_key (now : Int) (freshUuid : Str)
    (raw : List (Str × Structurer.Json)) (s : Str)
    (hid : dictGet (("id").toList) raw = some (Structurer.Json.str s))
    (hnb : (stripBoth isPyWs s).isEmpty = false) :
    dictGet (("_id").toList) (_make_doc now freshUuid raw) =
      some (BVal.js (Structurer.Json.str s)) ∧
    docKey (_make_doc now freshUuid raw) = s := by
  have h1 : dictGet (("id").toList)
      (dictPop (("entities").toList) (raw.map (fun kv => (kv.1, BVal.js kv.2)))) =
      some (BVal.js (Structurer.Json.str s)) := by
    rw [dictGet_dictPop_ne _ _ _ (by decide), dictGet_map_val, hid]
    rfl
  have h2 : dictGet (("_id").toList) (_make_doc now freshUuid raw) =
      some (BVal.js (Structurer.Json.str s)) := by
    unfold _make_doc
    dsimp only
    rw [h1]
    dsimp only
    rw [hnb]
    simp only [Bool.false_eq_true, if_false]
    rw [dictGet_dictSet_ne _ _ _ _ (by decide),
      dictGet_dictSet_ne _ _ _ _ (by decide),
      dictGet_dictSet_ne _ _ _ _ (by decide),
      dictGet_dictSet_self]
  refine ⟨h2, ?_⟩
  unfold docKey
  rw [h2]

/-- C4 counterexample: the same article (id "a") upserted at process time
0 and again at process time 100 ends up with `expires_at = 100 + horizon`,
not the first write's `0 + horizon`: the claim that `expires_at` is never
recomputed from the later write's `stored_at` is false for this code. -/
theorem C4_expires_recomputed_counterexample :
    (let d1 := _make_doc 0 (("u1").toList)
      [((("id").toList), Structurer.Json.str (("a").toList))];
     let d2 := _make_doc 100 (("u2").toList)
      [((("id").toList), Structurer.Json.str (("a").toList))];
     let st2 := (_upsert_one ((_upsert_one [] d1).1) d2).1;
     dictGet (("expires_at").toList) ((dictGet (("a").toList) st2).getD []) =
       some (BVal.time 129700)) ∧
    BVal.time 129700 ≠ BVal.time (0 + HORIZON_SECONDS) := by
  constructor
  · rfl
  · intro h
    have h2 : (129700 : Int) = 0 + HORIZON_SECONDS := by injection h
    rw [show (0 : Int) + HORIZON_SECONDS = 129600 from by decide] at h2
    exact absurd h2 (by decide)

/-- C4 (amended): the storage key equals the article id whenever the id
is a non-blank string, and `expires_at` always equals the same write's
`stored_at` plus the constant 36-hour horizon — but on every upsert,
updates of an existing key included, the stored document's `stored_at`
and `expires_at` are recomputed from that write's process time, so the
TTL IS extended by a later upsert of the same id. -/
theorem C4_key_and_recomputed_ttl (now : Int) (freshUuid : Str)
    (raw : List (Str × Structurer.Json)) (s : Str)
    (hid : dictGet (("id").toList) raw = some (Structurer.Json.str s))
    (hnb : (stripBoth isPyWs s).isEmpty = false) :
    docKey (_make_doc now freshUuid raw) = s ∧
    dictGet (("expires_at").toList) (_make_doc now freshUuid raw) =
      some (BVal.time (now + HORIZON_SECONDS)) ∧
    dictGet (("stored_at").toList) (_make_doc now freshUuid raw) =
      some (BVal.time now) ∧
    (∀ store : Store, ∃ d2 : Doc,
      dictGet s ((_upsert_one store (_make_doc now freshUuid raw)).1) = some d2 ∧
      dictGet (("expires_at").toList) d2 = some (BVal.time (now + HORIZON_SECONDS)) ∧
      dictGet (("stored_at").toList) d2 = some (BVal.time now)) := by
  obtain ⟨hIdGet, hkey⟩ := make_doc_key now freshUuid raw s hid hnb
  obtain ⟨hexp, hsto, hlexp, hlsto⟩ := make_doc_fields now freshUuid raw
  refine ⟨hkey, hexp, hsto, ?_⟩
  intro store
  have hup := upsert_one_store_get store (_make_doc now freshUuid raw)
  rw [hkey] at hup
  refine ⟨_, hup, ?_, ?_⟩
  · rcases hold : dictGet s store with _ | old
    · exact dictGet_dictMerge_of_last _ _ _ _ hlexp
    · exact dictGet_dictMerge_of_last _ _ _ _ hlexp
  · rcases hold : dictGet s store with _ | old
    · exact dictGet_dictMerge_of_last _ _ _ _ hlsto
    · exact dictGet_dictMerge_of_last _ _ _ _ hlsto

/-- Witness for C4 at a concrete article, fresh store and process time:
an update of the already-stored id recomputes the TTL stamps. -/
theorem C4_key_and_recomputed_ttl_witness :
    docKey (_make_doc 7 (("u").toList)
        [((("id").toList), Structurer.Json.str (("a").toList))]) = ("a").toList ∧
    dictGet (("expires_at").toList)
        (_make_doc 7 (("u").toList)
          [((("id").toList), Structurer.Json.str (("a").toList))]) =
      some (BVal.time (7 + HORIZON_SECONDS)) ∧
    dictGet (("stored_at").toList)
        (_make_doc 7 (("u").toList)
          [((("id").toList), Structurer.Json.str (("a").toList))]) =
      some (BVal.time 7) ∧
    (∀ store : Store, ∃ d2 : Doc,
      dictGet (("a").toList)
          ((_upsert_one store
            (_make_doc 7 (("u").toList)
              [((("id").toList), Structurer.Json.str (("a").toList))])).1) = some d2 ∧
      dictGet (("expires_at").toList) d2 = some (BVal.time (7 + HORIZON_SECONDS)) ∧
      dictGet (("stored_at").toList) d2 = some (BVal.time 7)) :=
  C4_key_and_recomputed_ttl 7 (("u").toList)
    [((("id").toList), Structurer.Json.str (("a").toList))] (("a").toList)
    rfl rfl

/-- C8 counterexample: an article carrying an `entities` field loses it in
the stored document — `_make_doc` pops `entities` — so the claim that the
document contains every article field including entities is false. -/
theorem C8_entities_dropped_counterexample :
    dictGet (("entities").toList)
        [((("entities").toList), Structurer.Json.arr []),
         ((("id").toList), Structurer.Json.str (("a").toList))] =
      some (Structurer.Json.arr []) ∧
    dictGet (("entities").toList)
        (_make_doc 0 (("u").toList)
          [((("entities").toList), Structurer.Json.arr []),
           ((("id").toList), Structurer.Json.str (("a").toList))]) = none := by
  exact ⟨rfl, rfl⟩

/-- C8 (amended): every article field other than `entities` and the five
injected names is carried into the stored document unchanged; `entities`
is removed; `article_id` is added as a copy of the `_id` key and the TTL
stamps are added; and the `_id` key itself is never part of the `$set`
update payload. -/
theorem C8_stored_document_frame (now : Int) (freshUuid : Str)
    (raw : List (Str × Structurer.Json)) (k : Str)
    (h1 : k ≠ ("entities").toList) (h2 : k ≠ ("_id").toList)
    (h3 : k ≠ ("article_id").toList) (h4 : k ≠ ("stored_at").toList)
    (h5 : k ≠ ("expires_at").toList) :
    dictGet k (_make_doc now freshUuid raw) = (dictGet k raw).map BVal.js ∧
    dictGet (("entities").toList) (_make_doc now freshUuid raw) = none ∧
    dictGet (("article_id").toList) (_make_doc now freshUuid raw) =
      dictGet (("_id").toList) (_make_doc now freshUuid raw) ∧
    dictGet (("expires_at").toList) (_make_doc now freshUuid raw) =
      some (BVal.time (now + HORIZON_SECONDS)) ∧
    dictGet (("stored_at").toList) (_make_doc now freshUuid raw) =
      some (BVal.time now) ∧
    dictGet (("_id").toList) (upsert_payload (_make_doc now freshUuid raw)) = none := by
  obtain ⟨hexp, hsto, _, _⟩ := make_doc_fields now freshUuid raw
  refine ⟨?_, ?_, ?_, hexp, hsto, ?_⟩
  · unfold _make_doc
    dsimp only
    rw [dictGet_dictSet_ne _ _ _ _ h5, dictGet_dictSet_ne _ _ _ _ h4,
      dictGet_dictSet_ne _ _ _ _ h3, dictGet_dictSet_ne _ _ _ _ h2,
      dictGet_dictPop_ne _ _ _ h1, dictGet_map_val]
  · unfold _make_doc
    dsimp only
    rw [dictGet_dictSet_ne _ _ _ _ (by decide), dictGet_dictSet_ne _ _ _ _ (by decide),
      dictGet_dictSet_ne _ _ _ _ (by decide), dictGet_dictSet_ne _ _ _ _ (by decide),
      dictGet_dictPop_self]
  · unfold _make_doc
    dsimp only
    rw [dictGet_dictSet_ne _ _ _ _ (by decide), dictGet_dictSet_ne _ _ _ _ (by decide),
      dictGet_dictSet_self]
    rw [dictGet_dictSet_ne _ _ _ _ (by decide), dictGet_dictSet_ne _ _ _ _ (by decide),
      dictGet_dictSet_ne _ _ _ _ (by decide), dictGet_dictSet_self]
  · unfold upsert_payload
    rw [dictGet_dictPop_self]

/-- Witness for C8 at a concrete article with a body field and an
entities field. -/
theorem C8_stored_document_frame_witness :
    dictGet (("title").toList)
        (_make_doc 3 (("u").toList)
          [((("title").toList), Structurer.Json.str (("hello").toList)),
           ((("entities").toList), Structurer.Json.arr [])]) =
      (dictGet (("title").toList)
        [((("title").toList), Structurer.Json.str (("hello").toList)),
         ((("entities").toList), Structurer.Json.arr [])]).map BVal.js ∧
    dictGet (("entities").toList)
        (_make_doc 3 (("u").toList)
          [((("title").toList), Structurer.Json.str (("hello").toList)),
           ((("entities").toList), Structurer.Json.arr [])]) = none :=
  ⟨(C8_stored_document_frame 3 (("u").toList)
      [((("title").toList), Structurer.Json.str (("hello").toList)),
       ((("entities").toList), Structurer.Json.arr [])] (("title").toList)
      (by decide) (by decide) (by decide) (by decide) (by decide)).1,
   (C8_stored_document_frame 3 (("u").toList)
      [((("title").toList), Structurer.Json.str (("hello").toList)),
       ((("entities").toList), Structurer.Json.arr [])] (("title").toList)
      (by decide) (by decide) (by decide) (by decide) (by decide)).2.1⟩

/-- Helper: a non-empty list is not `isEmpty`. -/
theorem isEmpty_false_of_ne {γ : Type} (l : List γ) (h : l ≠ []) :
    l.isEmpty = false := by
  cases l with
  | nil => exact absurd rfl h
  | cons a rest => rfl

/-- Helper: characters of the fence-stripped reply all come from the
reply itself (stripping only removes characters). -/
theorem mem_of_mem_strip_fences (raw : Str) (c : Char)
    (hc : c ∈ _strip_code_fences raw) : c ∈ raw := by
  have hboth : ∀ (p : Char → Bool) (s : Str) (d : Char), d ∈ stripBoth p s → d ∈ s := by
    intro p s d hd
    unfold stripBoth at hd
    rw [List.mem_reverse] at hd
    have h1 := (List.dropWhile_suffix p).subset hd
    rw [List.mem_reverse] at h1
    exact (List.dropWhile_suffix p).subset h1
  unfold _strip_code_fences at hc
  dsimp only at hc
  rcases hj : strPre (("json").toList)
      (lowerL (if strPre (("```").toList) (stripBoth isPyWs raw) = true then
        stripBoth isPyWs (stripBoth (fun c => c == '\x60') (stripBoth isPyWs raw))
      else stripBoth isPyWs raw)) with _ | _
  all_goals rw [hj] at hc
  all_goals rcases hf : strPre (("```").toList) (stripBoth isPyWs raw) with _ | _
  all_goals rw [hf] at hc
  all_goals simp only [Bool.false_eq_true, if_false, if_true] at hc
  · exact hboth _ _ _ hc
  · exact hboth _ _ _ (hboth _ _ _ (hboth _ _ _ hc))
  · unfold stripLead at hc
    have h1 := (List.dropWhile_suffix isPyWs).subset hc
    have h2 := List.mem_of_mem_drop h1
    exact hboth _ _ _ h2
  · unfold stripLead at hc
    have h1 := (List.dropWhile_suffix isPyWs).subset hc
    have h2 := List.mem_of_mem_drop h1
    exact hboth _ _ _ (hboth _ _ _ (hboth _ _ _ h2))

/-- Helper: a string without an opening brace has no balanced span. -/
theorem extract_none_of_no_brace (s : Str)
    (h : s.all (fun c => !(c == '\x7b')) = true) :
    _extract_json_braces s = none := by
  unfold _extract_json_braces
  have hd : s.dropWhile (fun c => !(c == '\x7b')) = [] := by
    rw [List.dropWhile_eq_nil_iff]
    exact fun x hx => List.all_eq_true.mp h x hx
  rw [hd]
  rfl

/-- C6 counterexample: the reply "42" contains no opening brace, yet the
repair pipeline returns the parsed number (the strict parse of step 2
succeeds) and archives nothing — so "a reply containing no opening brace
at all yields None with the raw text archived" is false as stated. -/
theorem C6_no_brace_not_none_counterexample :
    json_from_text (("42").toList) = (some (Json.num (("42").toList)), false) ∧
    json_from_text (("42").toList) ≠ (none, true) := by
  constructor
  · rfl
  · intro h
    exact Option.noConfusion (congrArg Prod.fst (rfl.trans h) :
      (some (Json.num (("42").toList)) : Option Json) = none)

/-- C6 (amended): the repair pipeline tries, in order, fence stripping
plus strict parse, then balanced-brace extraction, then trailing-comma
cleanup; a fenced object, an object with trailing prose and an object
with a trailing comma all parse; every failure on a non-empty reply
archives the raw text; a non-empty reply with no opening brace that
the strict parse also rejects yields None with the raw text archived;
only the strictly empty reply yields None without archiving, while a
whitespace-only reply fails every stage and is archived. -/
theorem C6_repair_pipeline :
    (∀ (raw : Str) (v : Json), raw ≠ [] →
      json_loads (_strip_code_fences raw) = some v →
      json_from_text raw = (some v, false)) ∧
    (∀ (raw ostr : Str) (v : Json), raw ≠ [] →
      json_loads (_strip_code_fences raw) = none →
      _extract_json_braces (_strip_code_fences raw) = some ostr →
      json_loads ostr = some v →
      json_from_text raw = (some v, false)) ∧
    (∀ (raw ostr : Str) (v : Json), raw ≠ [] →
      json_loads (_strip_code_fences raw) = none →
      _extract_json_braces (_strip_code_fences raw) = some ostr →
      json_loads ostr = none →
      json_loads (stripTrailingCommas ostr) = some v →
      json_from_text raw = (some v, false)) ∧
    (∀ raw : Str, raw ≠ [] → (json_from_text raw).1 = none →
      (json_from_text raw).2 = true) ∧
    (∀ raw : Str, raw ≠ [] → raw.all (fun c => !(c == '\x7b')) = true →
      json_loads (_strip_code_fences raw) = none →
      json_from_text raw = (none, true)) ∧
    json_from_text (("```json\n\x7b\"a\": 1\x7d\n```").toList) =
      (some (Json.obj [(("a").toList, Json.num (("1").toList))]), false) ∧
    json_from_text (("\x7b\"a\": 1\x7d Hope this helps!").toList) =
      (some (Json.obj [(("a").toList, Json.num (("1").toList))]), false) ∧
    json_from_text (("\x7b\"a\": 1,\x7d").toList) =
      (some (Json.obj [(("a").toList, Json.num (("1").toList))]), false) ∧
    json_from_text (("no braces here").toList) = (none, true) ∧
    json_from_text [] = (none, false) ∧
    json_from_text ((" ").toList) = (none, true) := by
  have hstep : ∀ raw : Str, raw ≠ [] →
      json_from_text raw =
        (match json_loads (_strip_code_fences raw) with
        | some v => (some v, false)
        | none =>
          match _extract_json_braces (_strip_code_fences raw) with
          | some ostr =>
            match json_loads ostr with
            | some v => (some v, false)
            | none =>
              match json_loads (stripTrailingCommas ostr) with
              | some v => (some v, false)
              | none => (none, true)
          | none => (none, true)) := by
    intro raw hraw
    unfold json_from_text
    rw [isEmpty_false_of_ne raw hraw]
    rfl
  refine ⟨?_, ?_, ?_, ?_, ?_, rfl, rfl, rfl, rfl, rfl, rfl⟩
  · intro raw v hraw h1
    rw [hstep raw hraw, h1]
  · intro raw ostr v hraw h1 h2 h3
    rw [hstep raw hraw, h1]
    dsimp only
    rw [h2]
    dsimp only
    rw [h3]
  · intro raw ostr v hraw h1 h2 h3 h4
    rw [hstep raw hraw, h1]
    dsimp only
    rw [h2]
    dsimp only
    rw [h3]
    dsimp only
    rw [h4]
  · intro raw hraw hnone
    rw [hstep raw hraw] at hnone ⊢
    rcases h1 : json_loads (_strip_code_fences raw) with _ | v
    · rcases h2 : _extract_json_braces (_strip_code_fences raw) with _ | ostr
      · simp [h1, h2]
      · rcases h3 : json_loads ostr with _ | v
        · rcases h4 : json_loads (stripTrailingCommas ostr) with _ | v
          · simp [h1, h2, h3, h4]
          · simp [h1, h2, h3, h4] at hnone
        · simp [h1, h2, h3] at hnone
    · simp [h1] at hnone
  · intro raw hraw hnob h1
    have hall : (_strip_code_fences raw).all (fun c => !(c == '\x7b')) = true := by
      rw [List.all_eq_true]
      intro x hx
      exact List.all_eq_true.mp hnob x (mem_of_mem_strip_fences raw x hx)
    rw [hstep raw hraw, h1]
    dsimp only
    rw [extract_none_of_no_brace _ hall]

/-- Witness for C6, instantiating the strict-parse clause on a plain
object reply and the no-brace failure clause on a prose reply. -/
theorem C6_repair_pipeline_witness :
    json_from_text (("\x7b\"k\": true\x7d").toList) =
      (some (Json.obj [(("k").toList, Json.bool true)]), false) ∧
    json_from_text (("model overloaded right now").toList) = (none, true) :=
  ⟨C6_repair_pipeline.1 (("\x7b\"k\": true\x7d").toList)
      (Json.obj [(("k").toList, Json.bool true)]) (by decide) rfl,
   C6_repair_pipeline.2.2.2.2.1 (("model overloaded right now").toList)
      (by decide) (by decide) rfl⟩

/-- Helper: a two-item dedupe in which item 1 sorts no later than item 2
and their similarity reaches the threshold keeps item 1 and attributes
item 2 to it. -/
theorem greedy_dedupe_pair_dup (fromiso : Str → Option Int) (now : Int)
    (i1 i2 : Item) (v1 v2 : List Rat) (thr : Rat)
    (horder : keyLtB
      (parse_dt fromiso now i2.published_at i2.fetched_at,
       parse_dt fromiso now i2.fetched_at i2.fetched_at)
      (parse_dt fromiso now i1.published_at i1.fetched_at,
       parse_dt fromiso now i1.fetched_at i1.fetched_at) = false)
    (hsim : thr ≤ dot v1 v2) :
    greedy_dedupe fromiso now [i1, i2] [v1, v2] thr =
      ([i1], [mkDupRec i2 i1 (dot v1 v2)]) := by
  unfold greedy_dedupe dedupe_after_pairs dedupe_idxs pysortedBy keyAt
  simp only [List.map, List.length, List.range_succ, List.range_zero, List.nil_append,
    List.cons_append, List.foldl_cons, List.foldl_nil, insertStable, List.get?, Option.getD]
  rw [horder]
  simp only [Bool.false_eq_true, if_false, insertStable, List.get?, Option.getD,
    List.zip, List.zipWith, dedupe_scan, List.isEmpty, List.nil_append, List.map,
    argmaxFirst, argGo, Bool.true_eq_false]
  rw [if_pos hsim]
  simp [dedupe_scan]

/-- Helper: a two-item dedupe in which item 2 sorts strictly earlier than
item 1 keeps item 2 and attributes item 1 to it. -/
theorem greedy_dedupe_pair_dup_swapped (fromiso : Str → Option Int) (now : Int)
    (i1 i2 : Item) (v1 v2 : List Rat) (thr : Rat)
    (horder : keyLtB
      (parse_dt fromiso now i2.published_at i2.fetched_at,
       parse_dt fromiso now i2.fetched_at i2.fetched_at)
      (parse_dt fromiso now i1.published_at i1.fetched_at,
       parse_dt fromiso now i1.fetched_at i1.fetched_at) = true)
    (hsim : thr ≤ dot v2 v1) :
    greedy_dedupe fromiso now [i1, i2] [v1, v2] thr =
      ([i2], [mkDupRec i1 i2 (dot v2 v1)]) := by
  unfold greedy_dedupe dedupe_after_pairs dedupe_idxs pysortedBy keyAt
  simp only [List.map, List.length, List.range_succ, List.range_zero, List.nil_append,
    List.cons_append, List.foldl_cons, List.foldl_nil, insertStable, List.get?, Option.getD]
  rw [horder]
  simp only [if_true, insertStable, List.get?, Option.getD,
    List.zip, List.zipWith, dedupe_scan, List.isEmpty, List.nil_append, List.map,
    argmaxFirst, argGo, Bool.true_eq_false]
  rw [if_pos hsim]
  simp [dedupe_scan]

/-- C3: when the later-evaluated of two items has dot-product similarity
with the kept item exactly equal to the default threshold 0.70, the
comparison `mx >= thr` fires and the item becomes a DuplicateRecord
attributed to the kept item instead of being kept. -/
theorem C3_similarity_at_threshold_is_duplicate (fromiso : Str → Option Int)
    (now : Int) (i1 i2 : Item) (v1 v2 : List Rat)
    (hunit1 : dot v1 v1 = 1) (hunit2 : dot v2 v2 = 1)
    (horder : keyLtB
      (parse_dt fromiso now i2.published_at i2.fetched_at,
       parse_dt fromiso now i2.fetched_at i2.fetched_at)
      (parse_dt fromiso now i1.published_at i1.fetched_at,
       parse_dt fromiso now i1.fetched_at i1.fetched_at) = false)
    (hsim : dot v1 v2 = 7 / 10) :
    greedy_dedupe fromiso now [i1, i2] [v1, v2] (7 / 10) =
      ([i1], [mkDupRec i2 i1 (7 / 10)]) := by
  rw [← hsim]
  exact greedy_dedupe_pair_dup fromiso now i1 i2 v1 v2 (dot v1 v2)
    horder (le_of_eq rfl)

/-- Witness for C3: two concrete items carrying unit 4-dimensional
rational vectors whose dot product is exactly 7/10. -/
theorem C3_similarity_at_threshold_is_duplicate_witness :
    greedy_dedupe isoToy 0
        [{ id := some (("a").toList), title := none, url := none, source := none,
           published_at := some (("100").toList), fetched_at := some (("100").toList) },
         { id := some (("b").toList), title := none, url := none, source := none,
           published_at := some (("200").toList), fetched_at := some (("200").toList) }]
        [[1, 0, 0, 0], [7/10, 7/10, 1/10, 1/10]] (7 / 10) =
      ([{ id := some (("a").toList), title := none, url := none, source := none,
          published_at := some (("100").toList), fetched_at := some (("100").toList) }],
       [mkDupRec
          { id := some (("b").toList), title := none, url := none, source := none,
            published_at := some (("200").toList), fetched_at := some (("200").toList) }
          { id := some (("a").toList), title := none, url := none, source := none,
            published_at := some (("100").toList), fetched_at := some (("100").toList) }
          (7 / 10)]) := by
  refine C3_similarity_at_threshold_is_duplicate isoToy 0 _ _ _ _ ?_ ?_ ?_ ?_
  · norm_num [dot]
  · norm_num [dot]
  · decide
  · norm_num [dot]

/-- C9 counterexample: with item a carrying a future-dated parseable
published_at and item b carrying no parseable timestamps at all, two runs
of dedupe on identical (items, vectors, threshold) but process times on
either side of a's date keep different items: the first run keeps b and
attributes a to it, the second keeps a and attributes b to it. -/
theorem C9_process_time_flips_partition_counterexample :
    (greedy_dedupe isoToy 2400
        [{ id := some (("a").toList), title := none, url := none, source := none,
           published_at := some (("2500").toList), fetched_at := some (("2020").toList) },
         { id := some (("b").toList), title := none, url := none, source := none,
           published_at := none, fetched_at := none }]
        [[1], [1]] (7 / 10)).1 =
      [{ id := some (("b").toList), title := none, url := none, source := none,
         published_at := none, fetched_at := none }] ∧
    (greedy_dedupe isoToy 2600
        [{ id := some (("a").toList), title := none, url := none, source := none,
           published_at := some (("2500").toList), fetched_at := some (("2020").toList) },
         { id := some (("b").toList), title := none, url := none, source := none,
           published_at := none, fetched_at := none }]
        [[1], [1]] (7 / 10)).1 =
      [{ id := some (("a").toList), title := none, url := none, source := none,
         published_at := some (("2500").toList), fetched_at := some (("2020").toList) }] ∧
    greedy_dedupe isoToy 2400
        [{ id := some (("a").toList), title := none, url := none, source := none,
           published_at := some (("2500").toList), fetched_at := some (("2020").toList) },
         { id := some (("b").toList), title := none, url := none, source := none,
           published_at := none, fetched_at := none }]
        [[1], [1]] (7 / 10) ≠
      greedy_dedupe isoToy 2600
        [{ id := some (("a").toList), title := none, url := none, source := none,
           published_at := some (("2500").toList), fetched_at := some (("2020").toList) },
         { id := some (("b").toList), title := none, url := none, source := none,
           published_at := none, fetched_at := none }]
        [[1], [1]] (7 / 10) := by
  have h1 := greedy_dedupe_pair_dup_swapped isoToy 2400
    { id := some (("a").toList), title := none, url := none, source := none,
      published_at := some (("2500").toList), fetched_at := some (("2020").toList) }
    { id := some (("b").toList), title := none, url := none, source := none,
      published_at := none, fetched_at := none }
    [1] [1] (7 / 10) (by decide) (by norm_num [dot])
  have h2 := greedy_dedupe_pair_dup isoToy 2600
    { id := some (("a").toList), title := none, url := none, source := none,
      published_at := some (("2500").toList), fetched_at := some (("2020").toList) }
    { id := some (("b").toList), title := none, url := none, source := none,
      published_at := none, fetched_at := none }
    [1] [1] (7 / 10) (by decide) (by norm_num [dot])
  refine ⟨by rw [h1], by rw [h2], ?_⟩
  intro h
  have hk := congrArg Prod.fst h
  rw [h1, h2] at hk
  dsimp only at hk
  exact absurd hk (by decide)

/-- C9 (amended): the process-time fallback is the only source of
variation — when every item has a parseable fetched_at, both sort-key
components are independent of the process time, and dedupe yields
identical kept/duplicate partitions at any two process times (and it is a
pure function of (items, vectors, threshold, process time), so two runs
at one process time always agree). -/
theorem C9_dedupe_now_independent (fromiso : Str → Option Int)
    (items : List Item) (embs : List (List Rat)) (thr : Rat)
    (h : ∀ it ∈ items, (it.fetched_at.bind (candVal fromiso)).isSome = true) :
    ∀ now1 now2 : Int,
      greedy_dedupe fromiso now1 items embs thr =
        greedy_dedupe fromiso now2 items embs thr := by
  intro now1 now2
  unfold greedy_dedupe dedupe_pairs
  have hpairs : items.map (fun it =>
      (parse_dt fromiso now1 it.published_at it.fetched_at,
       parse_dt fromiso now1 it.fetched_at it.fetched_at)) =
    items.map (fun it =>
      (parse_dt fromiso now2 it.published_at it.fetched_at,
       parse_dt fromiso now2 it.fetched_at it.fetched_at)) := by
    apply List.map_congr_left
    intro it hmem
    obtain ⟨t, ht⟩ := Option.isSome_iff_exists.mp (h it hmem)
    have hfetch : ∀ now : Int, parse_dt fromiso now it.fetched_at it.fetched_at = t := by
      intro now
      unfold parse_dt
      rw [ht]
    have hpub : ∀ now : Int,
        parse_dt fromiso now it.published_at it.fetched_at =
          parse_dt fromiso 0 it.published_at it.fetched_at := by
      intro now
      unfold parse_dt
      rcases hp : it.published_at.bind (candVal fromiso) with _ | u
      · rw [ht]
      · rfl
    rw [hfetch now1, hfetch now2, hpub now1, hpub now2]
  rw [hpairs]

/-- Witness for C9 on a concrete pair with parseable fetched_at values
and two different process times. -/
theorem C9_dedupe_now_independent_witness :
    greedy_dedupe isoToy 11
        [{ id := some (("a").toList), title := none, url := none, source := none,
           published_at := none, fetched_at := some (("100").toList) },
         { id := some (("b").toList), title := none, url := none, source := none,
           published_at := none, fetched_at := some (("200").toList) }]
        [[1], [1]] (7 / 10) =
      greedy_dedupe isoToy 4242
        [{ id := some (("a").toList), title := none, url := none, source := none,
           published_at := none, fetched_at := some (("100").toList) },
         { id := some (("b").toList), title := none, url := none, source := none,
           published_at := none, fetched_at := some (("200").toList) }]
        [[1], [1]] (7 / 10) :=
  C9_dedupe_now_independent isoToy _ [[1], [1]] (7 / 10) (by decide) 11 4242

/-- Helper: insertion produces a permutation of the pushed element and
the old list. -/
theorem insertStable_perm {α : Type} (lt : α → α → Bool) (x : α) :
    ∀ l : List α, List.Perm (insertStable lt x l) (x :: l)
  | [] => List.Perm.refl _
  | y :: ys => by
    unfold insertStable
    rcases h : lt x y with _ | _
    · simp only [Bool.false_eq_true, if_false]
      exact ((insertStable_perm lt x ys).cons y).trans (List.Perm.swap x y ys)
    · simp only [if_true]
      exact List.Perm.refl _

/-- Helper: the stable insertion sort permutes its input. -/
theorem pysortedBy_perm {α : Type} (lt : α → α → Bool) (l : List α) :
    List.Perm (pysortedBy lt l) l := by
  suffices h : ∀ (l2 acc : List α),
      List.Perm (l2.foldl (fun a x => insertStable lt x a) acc) (acc ++ l2) by
    simpa [pysortedBy] using h l []
  intro l2
  induction l2 with
  | nil => intro acc; simp
  | cons x xs ih =>
    intro acc
    simp only [List.foldl_cons]
    refine (ih (insertStable lt x acc)).trans ?_
    refine (List.Perm.append_right xs (insertStable_perm lt x acc)).trans ?_
    exact List.perm_middle.symm

/-- Helper: failing the strict lexicographic test means the reverse test
succeeds or the keys are equal. -/
theorem keyLtB_false_elim (k1 k2 : Int × Int) (h : keyLtB k1 k2 = false) :
    keyLtB k2 k1 = true ∨ k2 = k1 := by
  rcases k1 with ⟨a, b⟩
  rcases k2 with ⟨c, d⟩
  rw [Bool.eq_false_iff] at h
  simp only [keyLtB, Bool.or_eq_true, Bool.and_eq_true, decide_eq_true_eq,
    beq_iff_eq, Prod.mk.injEq, ne_eq] at h ⊢
  omega

/-- Helper: the head of an insertion is the new element or the old
head. -/
theorem insertStable_head {α : Type} (lt : α → α → Bool) (x : α) :
    ∀ l : List α,
      (insertStable lt x l).head? = some x ∨
      ∃ y ys, l = y :: ys ∧ lt x y = false ∧ (insertStable lt x l).head? = some y
  | [] => Or.inl rfl
  | y :: ys => by
    unfold insertStable
    rcases h : lt x y with _ | _
    · refine Or.inr ⟨y, ys, rfl, h, ?_⟩
      simp
    · exact Or.inl (by simp)

/-- Helper: inserting an index larger than everything already placed
preserves the combined sorted-and-stable chain. -/
theorem insertStable_chain_stable (pairs : List (Int × Int)) (x : Nat) :
    ∀ l : List Nat,
      List.Chain' (stableStep pairs) l →
      (∀ y ∈ l, y < x) →
      List.Chain' (stableStep pairs)
        (insertStable (fun a b => keyLtB (keyAt pairs a) (keyAt pairs b)) x l)
  | [], _, _ => List.chain'_singleton x
  | y :: ys, hch, hlt => by
    unfold insertStable
    rcases h : keyLtB (keyAt pairs x) (keyAt pairs y) with _ | _
    · simp only [Bool.false_eq_true, if_false]
      rw [List.chain'_cons']
      constructor
      · intro z hz
        rcases insertStable_head (fun a b => keyLtB (keyAt pairs a) (keyAt pairs b)) x ys
          with hh | ⟨w, ws, hys, hw, hh⟩
        · rw [hh] at hz
          have hzx : x = z := by simpa using hz
          subst hzx
          rcases keyLtB_false_elim _ _ h with h2 | h2
          · exact Or.inl h2
          · exact Or.inr ⟨h2, hlt y (by simp)⟩
        · rw [hh] at hz
          have hzw : w = z := by simpa using hz
          subst hzw
          rw [hys] at hch
          exact (List.chain'_cons.mp hch).1
      · exact insertStable_chain_stable pairs x ys hch.tail
          (fun z hz => hlt z (by simp [hz]))
    · simp only [if_true]
      rw [List.chain'_cons]
      exact ⟨Or.inl h, hch⟩

/-- Helper: inserting strictly increasing indices one after the other
yields a chain that is ascending in keys and, on ties, ascending in
index. -/
theorem foldl_insert_chain (pairs : List (Int × Int)) :
    ∀ (l acc : List Nat),
      List.Chain' (stableStep pairs) acc →
      (∀ a ∈ acc, ∀ b ∈ l, a < b) →
      List.Pairwise (· < ·) l →
      List.Chain' (stableStep pairs)
        (l.foldl (fun a x =>
          insertStable (fun a b => keyLtB (keyAt pairs a) (keyAt pairs b)) x a) acc)
  | [], acc, hch, _, _ => hch
  | x :: xs, acc, hch, hord, hpw => by
    simp only [List.foldl_cons]
    apply foldl_insert_chain pairs xs
    · exact insertStable_chain_stable pairs x acc hch (fun y hy => hord y hy x (by simp))
    · intro a ha b hb
      have hmem := (insertStable_perm _ x acc).mem_iff.mp ha
      rcases List.mem_cons.mp hmem with h1 | h1
      · subst h1
        exact (List.pairwise_cons.mp hpw).1 b hb
      · exact hord a h1 b (by simp [hb])
    · exact (List.pairwise_cons.mp hpw).2

/-- Helper: the sorted index list is a permutation of `range n`. -/
theorem dedupe_idxs_perm (pairs : List (Int × Int)) (n : Nat) :
    List.Perm (dedupe_idxs pairs n) (List.range n) :=
  pysortedBy_perm _ _

/-- Helper: the sorted index list is ascending in sort keys, with ties in
ascending original position — the sort is stable. -/
theorem dedupe_idxs_chain (pairs : List (Int × Int)) (n : Nat) :
    List.Chain' (stableStep pairs) (dedupe_idxs pairs n) := by
  unfold dedupe_idxs pysortedBy
  exact foldl_insert_chain pairs (List.range n) [] List.chain'_nil
    (by simp) (List.pairwise_lt_range n)

/-- Helper: insertion commutes with mapping when the two comparators
agree on the candidates. -/
theorem insertStable_map_congr {α β : Type} (g : α → β) (lt1 : α → α → Bool)
    (lt2 : β → β → Bool) (x : α) :
    ∀ l : List α, (∀ a ∈ l, lt1 x a = lt2 (g x) (g a)) →
      (insertStable lt1 x l).map g = insertStable lt2 (g x) (l.map g)
  | [], _ => rfl
  | y :: ys, h => by
    rw [List.map_cons]
    simp only [insertStable]
    rw [← h y (by simp)]
    rcases hlt : lt1 x y with _ | _
    · simp only [Bool.false_eq_true, if_false, List.map_cons]
      rw [insertStable_map_congr g lt1 lt2 x ys (fun a ha => h a (by simp [ha]))]
    · simp [List.map_cons]

/-- Helper: the insertion-sort fold commutes with mapping when the two
comparators agree on all involved elements. -/
theorem foldl_insert_map_congr {α β : Type} (g : α → β) (lt1 : α → α → Bool)
    (lt2 : β → β → Bool) :
    ∀ (l acc : List α),
      (∀ a, (a ∈ l ∨ a ∈ acc) → ∀ b, (b ∈ l ∨ b ∈ acc) → lt1 a b = lt2 (g a) (g b)) →
      (l.foldl (fun a x => insertStable lt1 x a) acc).map g =
        (l.map g).foldl (fun a x => insertStable lt2 x a) (acc.map g)
  | [], acc, _ => rfl
  | x :: xs, acc, h => by
    simp only [List.foldl_cons, List.map_cons]
    have hmem : ∀ c, (c ∈ xs ∨ c ∈ insertStable lt1 x acc) → (c ∈ x :: xs ∨ c ∈ acc) := by
      intro c hc
      rcases hc with hc | hc
      · exact Or.inl (by simp [hc])
      · rcases List.mem_cons.mp ((insertStable_perm lt1 x acc).mem_iff.mp hc) with h1 | h1
        · exact Or.inl (by simp [h1])
        · exact Or.inr h1
    rw [foldl_insert_map_congr g lt1 lt2 xs (insertStable lt1 x acc)
      (fun a ha b hb => h a (hmem a ha) b (hmem b hb))]
    rw [insertStable_map_congr g lt1 lt2 x acc
      (fun a ha => h x (Or.inl (by simp)) a (Or.inr ha))]

/-- Helper: reading items and vectors back through the index range
recovers the zipped input. -/
theorem range_map_get_zip :
    ∀ (items : List Item) (embs : List (List Rat)), embs.length = items.length →
      (List.range items.length).map
        (fun k => ((items.get? k).getD default, (embs.get? k).getD [])) =
        items.zip embs
  | [], [], _ => rfl
  | [], e :: es, h => by simp at h
  | i :: is, [], h => by simp at h
  | i :: is, e :: es, h => by
    have h2 : es.length = is.length := by simpa using h
    simp only [List.length_cons, List.range_succ_eq_map, List.map_cons, List.map_map,
      List.zip_cons_cons]
    congr 1
    rw [← range_map_get_zip is es h2]
    apply List.map_congr_left
    intro k hk
    rfl

/-- Helper: the claim-side sort key coincides with the source's
`parse_dt` pair. -/
theorem claim_key_eq (fromiso : Str → Option Int) (now : Int) (it : Item) :
    claim_key fromiso now it =
      (parse_dt fromiso now it.published_at it.fetched_at,
       parse_dt fromiso now it.fetched_at it.fetched_at) := by
  unfold claim_key effective_ts fetched_ts parse_dt
  rcases hp : it.published_at.bind (candVal fromiso) with _ | u <;>
    rcases hf : it.fetched_at.bind (candVal fromiso) with _ | v <;> simp

/-- Helper: the greedy scan appends to its kept accumulator a
subsequence of the items it walks, in walk order. -/
theorem dedupe_scan_kept (thr : Rat) :
    ∀ (l : List (Item × List Rat)) (kept : List Item) (keptE : List (List Rat))
      (dupes : List DupRec),
      ∃ tail : List Item,
        (dedupe_scan thr kept keptE dupes l).1 = kept ++ tail ∧
        List.Sublist tail (l.map Prod.fst)
  | [], kept, keptE, dupes => ⟨[], by simp [dedupe_scan], by simp⟩
  | (it, e) :: rest, kept, keptE, dupes => by
    simp only [dedupe_scan, List.map_cons]
    rcases hke : keptE.isEmpty with _ | _
    · simp only [Bool.false_eq_true, if_false]
      by_cases hc : thr ≤ (argmaxFirst (keptE.map (fun ke => dot ke e))).2
      · rw [if_pos hc]
        obtain ⟨tail, h1, h2⟩ := dedupe_scan_kept thr rest kept keptE
          (dupes ++ [mkDupRec it
            ((kept.get? (argmaxFirst (keptE.map (fun ke => dot ke e))).1).getD default)
            (argmaxFirst (keptE.map (fun ke => dot ke e))).2])
        exact ⟨tail, h1, h2.cons it⟩
      · rw [if_neg hc]
        obtain ⟨tail, h1, h2⟩ :=
          dedupe_scan_kept thr rest (kept ++ [it]) (keptE ++ [e]) dupes
        refine ⟨it :: tail, ?_, h2.cons₂ it⟩
        rw [h1, List.append_assoc]
        rfl
    · simp only [if_true]
      obtain ⟨tail, h1, h2⟩ :=
        dedupe_scan_kept thr rest (kept ++ [it]) (keptE ++ [e]) dupes
      refine ⟨it :: tail, ?_, h2.cons₂ it⟩
      rw [h1, List.append_assoc]
      rfl

/-- Helper: every walked item lands in exactly one of kept or dupes. -/
theorem dedupe_scan_counts (thr : Rat) :
    ∀ (l : List (Item × List Rat)) (kept : List Item) (keptE : List (List Rat))
      (dupes : List DupRec),
      (dedupe_scan thr kept keptE dupes l).1.length +
        (dedupe_scan thr kept keptE dupes l).2.length =
        kept.length + dupes.length + l.length
  | [], kept, keptE, dupes => by simp [dedupe_scan]
  | (it, e) :: rest, kept, keptE, dupes => by
    simp only [dedupe_scan]
    rcases hke : keptE.isEmpty with _ | _
    · simp only [Bool.false_eq_true, if_false]
      by_cases hc : thr ≤ (argmaxFirst (keptE.map (fun ke => dot ke e))).2
      · rw [if_pos hc]
        have h := dedupe_scan_counts thr rest kept keptE
          (dupes ++ [mkDupRec it
            ((kept.get? (argmaxFirst (keptE.map (fun ke => dot ke e))).1).getD default)
            (argmaxFirst (keptE.map (fun ke => dot ke e))).2])
        simp only [List.length_append, List.length_cons, List.length_singleton,
          List.length_nil] at h ⊢
        omega
      · rw [if_neg hc]
        have h := dedupe_scan_counts thr rest (kept ++ [it]) (keptE ++ [e]) dupes
        simp only [List.length_append, List.length_cons, List.length_singleton,
          List.length_nil] at h ⊢
        omega
    · simp only [if_true]
      have h := dedupe_scan_counts thr rest (kept ++ [it]) (keptE ++ [e]) dupes
      simp only [List.length_append, List.length_cons, List.length_singleton,
        List.length_nil] at h ⊢
      omega

/-- Helper: the accumulator loop of `argmaxFirst` returns an in-range
index of the full list holding the running maximum. -/
theorem argGo_get (full : List Rat) :
    ∀ (l : List Rat) (bi i : Nat) (bv : Rat),
      full.get? bi = some bv → (∀ j, l.get? j = full.get? (i + j)) →
      full.get? (argGo bi bv i l).1 = some (argGo bi bv i l).2
  | [], bi, i, bv, hbase, _ => hbase
  | y :: ys, bi, i, bv, hbase, hoff => by
    simp only [argGo]
    have hy : full.get? i = some y := by
      have h0 := hoff 0
      simpa using h0.symm
    have hoff2 : ∀ j, ys.get? j = full.get? (i + 1 + j) := by
      intro j
      have h1 := hoff (j + 1)
      simp only [List.get?_cons_succ] at h1
      rw [h1]
      congr 1
      omega
    by_cases hc : bv < y
    · rw [if_pos hc]
      exact argGo_get full ys i (i + 1) y hy hoff2
    · rw [if_neg hc]
      exact argGo_get full ys bi (i + 1) bv hbase hoff2

/-- Helper: the accumulator loop result dominates the seed and every
scanned element. -/
theorem argGo_max :
    ∀ (l : List Rat) (bi i : Nat) (bv : Rat),
      bv ≤ (argGo bi bv i l).2 ∧ ∀ x ∈ l, x ≤ (argGo bi bv i l).2
  | [], bi, i, bv => ⟨le_refl bv, by simp⟩
  | y :: ys, bi, i, bv => by
    simp only [argGo]
    by_cases hc : bv < y
    · rw [if_pos hc]
      obtain ⟨h1, h2⟩ := argGo_max ys i (i + 1) y
      refine ⟨le_of_lt (lt_of_lt_of_le hc h1), ?_⟩
      intro x hx
      rcases List.mem_cons.mp hx with h3 | h3
      · subst h3
        exact h1
      · exact h2 x h3
    · rw [if_neg hc]
      obtain ⟨h1, h2⟩ := argGo_max ys bi (i + 1) bv
      refine ⟨h1, ?_⟩
      intro x hx
      rcases List.mem_cons.mp hx with h3 | h3
      · subst h3
        exact le_trans (le_of_not_lt hc) h1
      · exact h2 x h3

/-- Helper: `argmaxFirst` returns an index into the similarity list whose
entry is the returned value, and that value is the maximum. -/
theorem argmaxFirst_spec (sims : List Rat) (hne : sims ≠ []) :
    sims.get? (argmaxFirst sims).1 = some (argmaxFirst sims).2 ∧
      ∀ x ∈ sims, x ≤ (argmaxFirst sims).2 := by
  rcases sims with _ | ⟨x, xs⟩
  · exact absurd rfl hne
  · simp only [argmaxFirst]
    constructor
    · apply argGo_get (x :: xs) xs 0 1 x rfl
      intro j
      rw [Nat.add_comm 1 j, List.get?_cons_succ]
    · intro z hz
      obtain ⟨h1, h2⟩ := argGo_max xs 0 1 x
      rcases List.mem_cons.mp hz with h3 | h3
      · subst h3
        exact h1
      · exact h2 z h3

/-- Helper: the source pipeline (index sort, permute, scan) coincides
with the claim pipeline (sort the zipped pairs by the claim key, scan). -/
theorem greedy_dedupe_eq_claim (fromiso : Str → Option Int) (now : Int)
    (items : List Item) (embs : List (List Rat)) (thr : Rat)
    (hlen : embs.length = items.length) :
    greedy_dedupe fromiso now items embs thr =
      dedupe_claim fromiso now items embs thr := by
  unfold greedy_dedupe dedupe_after_pairs dedupe_claim
  dsimp only
  rw [List.zip_map']
  congr 1
  unfold dedupe_idxs eval_order pysortedBy
  rw [foldl_insert_map_congr
    (fun k => ((items.get? k).getD default, (embs.get? k).getD []))
    (fun a b => keyLtB (keyAt (dedupe_pairs fromiso now items) a)
      (keyAt (dedupe_pairs fromiso now items) b))
    (fun a b => keyLtB (claim_key fromiso now a.1) (claim_key fromiso now b.1))
    (List.range items.length) []
    ?_]
  · rw [range_map_get_zip items embs hlen]
    rfl
  · intro a ha b hb
    have hk : ∀ c, (c ∈ List.range items.length ∨ c ∈ ([] : List Nat)) →
        keyAt (dedupe_pairs fromiso now items) c =
          claim_key fromiso now (((items.get? c).getD default,
            (embs.get? c).getD []) : Item × List Rat).1 := by
      intro c hc
      have hcn : c < items.length := by
        rcases hc with hc | hc
        · exact List.mem_range.mp hc
        · simp at hc
      unfold keyAt dedupe_pairs
      rw [List.get?_map]
      rcases hg : items.get? c with _ | itc
      · rw [List.get?_eq_none] at hg
        omega
      · simp only [Option.map_some, Option.getD_some]
        rw [claim_key_eq]
        rfl
    dsimp only
    rw [hk a ha, hk b hb]

/-- C1: the full dedupe pipeline agrees with the claim description:
(1) it equals the claim-side pipeline — each item gets the effective
timestamp (published_at if parseable, else fetched_at, else process
time; `parse_dt` is total so this never fails), the (item, vector) pairs
are sorted ascending by (effective timestamp, fetched timestamp) and
scanned greedily; (2) the sorted index list is a permutation of the
input positions; (3) it is ascending in keys with ties in input order —
the sort is stable; (4) when the evaluation order is non-empty its first
item is kept first; (5) the kept output is a subsequence of the
evaluation order; (6) every evaluated item lands in exactly one of kept
or duplicates; (7) the argmax used for attribution returns an index of
the similarity row holding its maximum, so each DuplicateRecord points
at a kept item of maximum similarity. -/
theorem C1_dedupe_pipeline (fromiso : Str → Option Int) (now : Int)
    (items : List Item) (embs : List (List Rat)) (thr : Rat)
    (hlen : embs.length = items.length) :
    greedy_dedupe fromiso now items embs thr =
      dedupe_claim fromiso now items embs thr ∧
    List.Perm (dedupe_idxs (dedupe_pairs fromiso now items) items.length)
      (List.range items.length) ∧
    List.Chain' (stableStep (dedupe_pairs fromiso now items))
      (dedupe_idxs (dedupe_pairs fromiso now items) items.length) ∧
    (∀ (it : Item) (e : List Rat) (rest : List (Item × List Rat)),
      eval_order fromiso now items embs = (it, e) :: rest →
      (greedy_dedupe fromiso now items embs thr).1.head? = some it) ∧
    List.Sublist (greedy_dedupe fromiso now items embs thr).1
      ((eval_order fromiso now items embs).map Prod.fst) ∧
    (greedy_dedupe fromiso now items embs thr).1.length +
      (greedy_dedupe fromiso now items embs thr).2.length =
      (eval_order fromiso now items embs).length ∧
    (∀ sims : List Rat, sims ≠ [] →
      sims.get? (argmaxFirst sims).1 = some (argmaxFirst sims).2 ∧
      ∀ x ∈ sims, x ≤ (argmaxFirst sims).2) := by
  have heq := greedy_dedupe_eq_claim fromiso now items embs thr hlen
  refine ⟨heq, dedupe_idxs_perm _ _, dedupe_idxs_chain _ _, ?_, ?_, ?_,
    argmaxFirst_spec⟩
  · intro it e rest hev
    rw [heq]
    unfold dedupe_claim
    rw [hev]
    simp only [dedupe_scan, List.isEmpty_nil, if_true, List.nil_append]
    obtain ⟨tail, h1, _⟩ := dedupe_scan_kept thr rest [it] [e] []
    rw [h1]
    rfl
  · rw [heq]
    unfold dedupe_claim
    obtain ⟨tail, h1, h2⟩ :=
      dedupe_scan_kept thr (eval_order fromiso now items embs) [] [] []
    rw [h1]
    simpa using h2
  · rw [heq]
    unfold dedupe_claim
    have h := dedupe_scan_counts thr (eval_order fromiso now items embs) [] [] []
    simpa using h

/-- Witness for C1 on the concrete two-item configuration of the C3
witness. -/
theorem C1_dedupe_pipeline_witness :
    greedy_dedupe isoToy 5
        [{ id := some (("a").toList), title := none, url := none, source := none,
           published_at := some (("100").toList), fetched_at := some (("100").toList) },
         { id := some (("b").toList), title := none, url := none, source := none,
           published_at := some (("200").toList), fetched_at := some (("200").toList) }]
        [[1, 0], [0, 1]] (7 / 10) =
      dedupe_claim isoToy 5
        [{ id := some (("a").toList), title := none, url := none, source := none,
           published_at := some (("100").toList), fetched_at := some (("100").toList) },
         { id := some (("b").toList), title := none, url := none, source := none,
           published_at := some (("200").toList), fetched_at := some (("200").toList) }]
        [[1, 0], [0, 1]] (7 / 10) :=
  (C1_dedupe_pipeline isoToy 5 _ [[1, 0], [0, 1]] (7 / 10) (by decide)).1

end Theorems

end FNP
